import Mathlib

/-!
Shallow embedding of the core logic of `wsbu.py` (Windhawk Services Backup
Utility): the two pipeline functions `execute_backup_operation` and
`execute_restore_operation`.

Modelling choices:
* A filesystem path is a list of name components (`os.path.join` becomes
  list append).
* The filesystem is a pair of lists: existing directories and
  (path, content) file entries.  File content is either raw bytes or a zip
  archive; `shutil.make_archive` stores the snapshot of the staging tree as
  a `Content.zip` value and `shutil.unpack_archive` pattern-matches on it
  (a non-`zip` content or a missing file is the "invalid archive" error
  case).
* `tempfile.TemporaryDirectory` becomes an explicit fresh path argument
  `tmp`; the `with` block's guaranteed cleanup becomes a `removeTree tmp`
  on every exit path of the function.
* The external registry tool becomes function arguments:
  `regExport : Except String String` (the outcome of
  `reg export HKLM\SOFTWARE\Windhawk <file> /y`, error carries the captured
  stderr text, success carries the bytes of the produced `.reg` file) and
  `regImport : Content → Except String Unit` (the outcome of
  `reg import <file>` on a file with the given content).
* `datetime.datetime.now().strftime('%Y%m%d_%H%M%S')` becomes the explicit
  `timestamp` argument.
* The log is the list of exactly the message strings the Python code
  appends (the Python code joins them with newlines on return).
-/

namespace WSBU

/-- A filesystem path, as a list of name components. -/
abbrev Path := List String

/-- File content: raw bytes, or a zip archive holding relative file entries
and relative directory entries (the in-model representation of the bytes a
zip container encodes). -/
inductive Content where
  | bytes (s : String)
  | zip (files : List (Path × Content)) (dirs : List Path)

instance : Inhabited Content := ⟨.bytes ""⟩

/-- A filesystem state: the set of existing directories (as a list) and the
existing files with their contents. -/
@[ext] structure FS where
  dirs : List Path
  files : List (Path × Content)

/-- Boolean path-prefix test: `isPre p q` holds when `q` lies at or below
`p` in the directory tree. -/
def isPre : Path → Path → Bool
  | [], _ => true
  | _ :: _, [] => false
  | a :: as, b :: bs => if a = b then isPre as bs else false

/-- First-match lookup of a file's content by path. -/
def lookupFile (p : Path) : List (Path × Content) → Option Content
  | [] => none
  | e :: es => if e.1 = p then some e.2 else lookupFile p es

/-- Boolean membership of a path in a list of paths. -/
def containsPath (l : List Path) (p : Path) : Bool :=
  l.any (fun q => decide (q = p))

/-- `os.path.exists`: the path names an existing directory or file. -/
def FS.existsPath (fs : FS) (p : Path) : Bool :=
  containsPath fs.dirs p || (lookupFile p fs.files).isSome

/-- Create one directory if it does not already exist. -/
def FS.addDir (fs : FS) (p : Path) : FS :=
  if containsPath fs.dirs p then fs else { fs with dirs := fs.dirs ++ [p] }

/-- Create each directory of a list (skipping existing ones). -/
def FS.addDirs (fs : FS) (l : List Path) : FS :=
  l.foldl FS.addDir fs

/-- The nonempty prefixes of a path, shortest first. -/
def prefixesOf (p : Path) : List Path :=
  (List.range p.length).map (fun i => p.take (i + 1))

/-- `os.makedirs`: create the directory and all missing ancestors. -/
def FS.makedirs (fs : FS) (p : Path) : FS :=
  fs.addDirs (prefixesOf p)

/-- Write a file, overwriting any existing file at that path. -/
def FS.setFile (fs : FS) (p : Path) (c : Content) : FS :=
  { fs with files := (p, c) :: fs.files.filter (fun e => !(decide (e.1 = p))) }

/-- Rebase a path from below `src` to below `dst`. -/
def movePath (src dst p : Path) : Path := dst ++ p.drop src.length

/-- `shutil.copytree src dst`: create `dst` (with ancestors) and copy every
directory and file at or below `src` to the corresponding path below `dst`.
Copied files overwrite existing destination files at the same path
(`dirs_exist_ok=True` merge semantics); destination entries without a
counterpart are kept. -/
def FS.copytreeInto (fs : FS) (src dst : Path) : FS :=
  let copiedD := fs.dirs.filterMap
    (fun d => if isPre src d then some (movePath src dst d) else none)
  let copiedF := fs.files.filterMap
    (fun e => if isPre src e.1 then some (movePath src dst e.1, e.2) else none)
  let fs1 := (fs.makedirs dst).addDirs copiedD
  let kept := fs1.files.filter (fun e => copiedF.all (fun c => !(decide (c.1 = e.1))))
  { fs1 with files := copiedF ++ kept }

/-- The file entries of a list at or below `p`, with keys made relative to
`p`, in list order. -/
def restrictFiles (p : Path) (l : List (Path × Content)) : List (Path × Content) :=
  l.filterMap
    (fun e => if isPre p e.1 then some (e.1.drop p.length, e.2) else none)

/-- The paths of a list strictly below `p`, made relative to `p`, in list
order. -/
def restrictDirs (p : Path) (l : List Path) : List Path :=
  l.filterMap
    (fun d => if isPre p d && !(decide (d = p)) then some (d.drop p.length) else none)

/-- The file entries at or below `p`, with keys made relative to `p`,
in filesystem order. -/
def FS.snapshotFiles (fs : FS) (p : Path) : List (Path × Content) :=
  restrictFiles p fs.files

/-- The directories strictly below `p`, with keys made relative to `p`. -/
def FS.snapshotDirs (fs : FS) (p : Path) : List Path :=
  restrictDirs p fs.dirs

/-- `shutil.make_archive`: write at `zipPath` a zip file whose root is the
tree rooted at `srcRoot`. -/
def FS.makeArchive (fs : FS) (zipPath srcRoot : Path) : FS :=
  fs.setFile zipPath (.zip (fs.snapshotFiles srcRoot) (fs.snapshotDirs srcRoot))

/-- Extraction of a zip's entries below `dst`: listed directories are
created and file entries are written (entries earlier in the archive take
precedence on duplicate names).  Archives produced by this program list
every staged directory explicitly, so only listed directories are
registered. -/
def FS.unpackInto (fs : FS) (F : List (Path × Content)) (D : List Path)
    (dst : Path) : FS :=
  let fs1 := fs.addDirs (D.map (fun d => dst ++ d))
  let kept := fs1.files.filter (fun e => F.all (fun a => !(decide (dst ++ a.1 = e.1))))
  { fs1 with files := F.map (fun e => (dst ++ e.1, e.2)) ++ kept }

/-- Remove a directory tree: every directory and file at or below `p`. -/
def FS.removeTree (fs : FS) (p : Path) : FS :=
  { dirs := fs.dirs.filter (fun d => !(isPre p d)),
    files := fs.files.filter (fun e => !(isPre p e.1)) }

/-- Render a path the way the Windows code does in log messages. -/
def pathStr (p : Path) : String := String.intercalate "\\" p

/-- The last component of a path (`os.path.basename`). -/
def baseName (p : Path) : String := (p.getLast?).getD ""

/-- Result of one operation: the returned success flag, the returned log
messages in order, and the filesystem afterwards. -/
structure OpResult where
  success : Bool
  log : List String
  fs : FS

/-- The archive file name `windhawk-backup_<timestamp>.zip`. -/
def zipFileName (timestamp : String) : String :=
  "windhawk-backup_" ++ timestamp ++ ".zip"

def msStagedMsg : String :=
  "Status: ModsSource directory successfully staged for backup."

def msWarnMsg (root : Path) : String :=
  "Warning: ModsSource directory not found at: " ++ pathStr (root ++ ["ModsSource"])

def emStagedMsg : String :=
  "Status: Engine\\Mods directory successfully staged for backup."

def emWarnMsg (root : Path) : String :=
  "Warning: Engine\\Mods directory not found at: " ++ pathStr (root ++ ["Engine", "Mods"])

def regExportOkMsg : String :=
  "Status: Windhawk registry key successfully exported."

def regExportErrMsg (stderr : String) : String :=
  "ERROR: Registry export failed. Details: " ++ stderr

def backupCompleteMsg (dest : Path) (timestamp : String) : String :=
  "\nOperation Complete: Backup archive created at:\n"
    ++ pathStr (dest ++ ["windhawk-backup_" ++ timestamp]) ++ ".zip"

def extractOkMsg (arch : Path) : String :=
  "Status: Archive '" ++ baseName arch ++ "' extracted successfully."

def extractErrMsg (arch : Path) : String :=
  "ERROR: Failed to extract archive. Details: " ++ pathStr arch

def msRestoredMsg : String := "Status: ModsSource directory restored."

def msMissingMsg : String :=
  "Warning: ModsSource directory not found in backup archive."

def emRestoredMsg : String := "Status: Engine\\Mods directory restored."

def emMissingMsg : String :=
  "Warning: Engine\\Mods directory not found in backup archive."

def regImportOkMsg : String := "Status: Windhawk registry settings imported."

def regImportErrMsg (stderr : String) : String :=
  "ERROR: Registry import failed. Details: " ++ stderr

def regMissingMsg : String :=
  "Warning: Registry file (Windhawk.reg) not found in backup archive."

def restoreCompleteMsg : String :=
  "\nOperation Complete: Restore process finished successfully."

/-- Backup step `os.makedirs(backup_destination_folder)` when absent. -/
def backup_fs1 (dest : Path) (fs0 : FS) : FS :=
  if fs0.existsPath dest then fs0 else fs0.makedirs dest

/-- Backup step: `tempfile.TemporaryDirectory()` creates the staging
directory. -/
def backup_fs2 (dest tmp : Path) (fs0 : FS) : FS :=
  (backup_fs1 dest fs0).addDir tmp

/-- Backup check `os.path.exists(mods_source_folder)`. -/
def backup_msExists (windhawk_root dest tmp : Path) (fs0 : FS) : Bool :=
  (backup_fs2 dest tmp fs0).existsPath (windhawk_root ++ ["ModsSource"])

/-- Backup step: `shutil.copytree` of `ModsSource` into the staging area
when present. -/
def backup_fs3 (windhawk_root dest tmp : Path) (fs0 : FS) : FS :=
  if backup_msExists windhawk_root dest tmp fs0 then
    (backup_fs2 dest tmp fs0).copytreeInto (windhawk_root ++ ["ModsSource"])
      (tmp ++ ["ModsSource"])
  else backup_fs2 dest tmp fs0

/-- Backup check `os.path.exists(engine_mods_folder)`. -/
def backup_emExists (windhawk_root dest tmp : Path) (fs0 : FS) : Bool :=
  (backup_fs3 windhawk_root dest tmp fs0).existsPath
    (windhawk_root ++ ["Engine", "Mods"])

/-- Backup step: `shutil.copytree` of `Engine\Mods` into the staging area
when present. -/
def backup_fs4 (windhawk_root dest tmp : Path) (fs0 : FS) : FS :=
  if backup_emExists windhawk_root dest tmp fs0 then
    (backup_fs3 windhawk_root dest tmp fs0).copytreeInto
      (windhawk_root ++ ["Engine", "Mods"]) (tmp ++ ["Engine", "Mods"])
  else backup_fs3 windhawk_root dest tmp fs0

/-- `execute_backup_operation(windhawk_root_path, backup_destination_folder)`
from `wsbu.py`, with the external registry export tool, the timestamp and
the fresh temporary directory made explicit arguments. -/
def execute_backup_operation (windhawk_root dest : Path)
    (regExport : Except String String) (timestamp : String) (tmp : Path)
    (fs0 : FS) : OpResult :=
  let log1 :=
    if backup_msExists windhawk_root dest tmp fs0 then [msStagedMsg]
    else [msWarnMsg windhawk_root]
  let log2 :=
    log1 ++ (if backup_emExists windhawk_root dest tmp fs0 then [emStagedMsg]
             else [emWarnMsg windhawk_root])
  match regExport with
  | .error stderr =>
      { success := false,
        log := log2 ++ [regExportErrMsg stderr],
        fs := (backup_fs4 windhawk_root dest tmp fs0).removeTree tmp }
  | .ok rc =>
      let fs5 := (backup_fs4 windhawk_root dest tmp fs0).setFile
        (tmp ++ ["Windhawk.reg"]) (.bytes rc)
      let fs6 := fs5.makeArchive (dest ++ [zipFileName timestamp]) tmp
      { success := true,
        log := log2 ++ [regExportOkMsg, backupCompleteMsg dest timestamp],
        fs := fs6.removeTree tmp }

/-- Restore step: staging directory creation followed by
`shutil.unpack_archive` of the archive entries. -/
def restore_fs2 (tmp : Path) (F : List (Path × Content)) (D : List Path)
    (fs0 : FS) : FS :=
  (fs0.addDir tmp).unpackInto F D tmp

/-- Restore check `os.path.exists(backup_mods_source)`. -/
def restore_msExists (tmp : Path) (F : List (Path × Content)) (D : List Path)
    (fs0 : FS) : Bool :=
  (restore_fs2 tmp F D fs0).existsPath (tmp ++ ["ModsSource"])

/-- Restore step: `shutil.copytree(..., dirs_exist_ok=True)` of the staged
`ModsSource` into the installation root when present. -/
def restore_fs3 (windhawk_root tmp : Path) (F : List (Path × Content))
    (D : List Path) (fs0 : FS) : FS :=
  if restore_msExists tmp F D fs0 then
    (restore_fs2 tmp F D fs0).copytreeInto (tmp ++ ["ModsSource"])
      (windhawk_root ++ ["ModsSource"])
  else restore_fs2 tmp F D fs0

/-- Restore check `os.path.exists(backup_engine_mods)`. -/
def restore_emExists (windhawk_root tmp : Path) (F : List (Path × Content))
    (D : List Path) (fs0 : FS) : Bool :=
  (restore_fs3 windhawk_root tmp F D fs0).existsPath (tmp ++ ["Engine", "Mods"])

/-- Restore step: `shutil.copytree(..., dirs_exist_ok=True)` of the staged
`Engine\Mods` into the installation root when present. -/
def restore_fs4 (windhawk_root tmp : Path) (F : List (Path × Content))
    (D : List Path) (fs0 : FS) : FS :=
  if restore_emExists windhawk_root tmp F D fs0 then
    (restore_fs3 windhawk_root tmp F D fs0).copytreeInto
      (tmp ++ ["Engine", "Mods"]) (windhawk_root ++ ["Engine", "Mods"])
  else restore_fs3 windhawk_root tmp F D fs0

/-- `execute_restore_operation(windhawk_root_path, backup_zip_path)` from
`wsbu.py`, with the external registry import tool and the fresh temporary
directory made explicit arguments. -/
def execute_restore_operation (windhawk_root arch : Path)
    (regImport : Content → Except String Unit) (tmp : Path)
    (fs0 : FS) : OpResult :=
  match lookupFile arch (fs0.addDir tmp).files with
  | some (.zip F D) =>
      let log2 := [extractOkMsg arch] ++
        (if restore_msExists tmp F D fs0 then [msRestoredMsg] else [msMissingMsg])
      let log3 := log2 ++
        (if restore_emExists windhawk_root tmp F D fs0 then [emRestoredMsg]
         else [emMissingMsg])
      match lookupFile (tmp ++ ["Windhawk.reg"])
          (restore_fs4 windhawk_root tmp F D fs0).files with
      | some c =>
          match regImport c with
          | .ok _ =>
              { success := true,
                log := log3 ++ [regImportOkMsg, restoreCompleteMsg],
                fs := (restore_fs4 windhawk_root tmp F D fs0).removeTree tmp }
          | .error stderr =>
              { success := false,
                log := log3 ++ [regImportErrMsg stderr],
                fs := (restore_fs4 windhawk_root tmp F D fs0).removeTree tmp }
      | none =>
          { success := true,
            log := log3 ++ [regMissingMsg, restoreCompleteMsg],
            fs := (restore_fs4 windhawk_root tmp F D fs0).removeTree tmp }
  | _ =>
      { success := false,
        log := [extractErrMsg arch],
        fs := (fs0.addDir tmp).removeTree tmp }

/-- No directory and no file lies at or below `t`.  Used both as the
freshness property of a newly created temporary directory and as the
"nothing of the staging area remains" property after cleanup. -/
def FS.freshFor (fs : FS) (t : Path) : Bool :=
  fs.dirs.all (fun d => !(isPre t d)) && fs.files.all (fun e => !(isPre t e.1))

/-- Two path lists contain the same set of paths. -/
def sameSet (a b : List Path) : Bool :=
  a.all (fun x => containsPath b x) && b.all (fun x => containsPath a x)

/-- The file at `zp` exists and is a zip archive. -/
def isZipAt (fs : FS) (zp : Path) : Bool :=
  match lookupFile zp fs.files with
  | some (.zip _ _) => true
  | _ => false

/-- The archive at `zp` holds some entry (file or directory) at or below a
top-level entry called `name`. -/
def archiveMentions (fs : FS) (zp : Path) (name : String) : Bool :=
  match lookupFile zp fs.files with
  | some (.zip F D) =>
      F.any (fun e => isPre [name] e.1) || D.any (fun d => isPre [name] d)
  | _ => false

/-- The file at `zp` is a zip archive whose root mirrors the staging-area
root: `ModsSource/` and `Engine/Mods/` directories and a `Windhawk.reg`
file with the exported registry bytes `rc`, all at top level. -/
def zipLayoutOk (fs : FS) (zp : Path) (rc : String) : Bool :=
  match lookupFile zp fs.files with
  | some (.zip F D) =>
      containsPath D ["ModsSource"] && containsPath D ["Engine", "Mods"] &&
      (match lookupFile ["Windhawk.reg"] F with
       | some (.bytes s) => decide (s = rc)
       | _ => false)
  | _ => false

/-- The success condition of `restore` as the spec words it: success unless
archive decompression failed or the registry import (attempted only when
the archive provides `Windhawk.reg`) failed. -/
def spec_restore_success (arch : Path) (fs0 : FS)
    (regImport : Content → Except String Unit) : Bool :=
  match lookupFile arch fs0.files with
  | some (.zip F _) =>
      (match lookupFile ["Windhawk.reg"] F with
       | some c => (match regImport c with | .ok _ => true | .error _ => false)
       | none => true)
  | _ => false

/-! ### Path-prefix lemmas -/

@[simp] theorem isPre_nil_left (q : Path) : isPre [] q = true := rfl

@[simp] theorem isPre_refl (p : Path) : isPre p p = true := by
  induction p with
  | nil => rfl
  | cons a as ih => simp [isPre, ih]

@[simp] theorem isPre_append (p q : Path) : isPre p (p ++ q) = true := by
  induction p with
  | nil => rfl
  | cons a as ih => simp [isPre, ih]

@[simp] theorem isPre_cancel (p a b : Path) :
    isPre (p ++ a) (p ++ b) = isPre a b := by
  induction p with
  | nil => rfl
  | cons x xs ih => simp [isPre, ih]

theorem eq_append_drop_of_isPre : ∀ {p q : Path}, isPre p q = true →
    q = p ++ q.drop p.length
  | [], _, _ => rfl
  | a :: as, [], h => by simp [isPre] at h
  | a :: as, b :: bs, h => by
      by_cases hab : a = b
      · subst hab
        simp only [isPre, if_pos rfl] at h
        simpa using eq_append_drop_of_isPre h
      · simp [isPre, hab] at h

theorem isPre_extend {a b : Path} (c : Path) (h : isPre a b = true) :
    isPre a (b ++ c) = true := by
  rw [eq_append_drop_of_isPre h, List.append_assoc]
  exact isPre_append _ _

theorem isPre_trans {a b c : Path} (h1 : isPre a b = true)
    (h2 : isPre b c = true) : isPre a c = true := by
  rw [eq_append_drop_of_isPre h2, eq_append_drop_of_isPre h1,
    List.append_assoc]
  exact isPre_append _ _

theorem isPre_comparable : ∀ {a b c : Path}, isPre a c = true →
    isPre b c = true → isPre a b = true ∨ isPre b a = true
  | [], _, _, _, _ => Or.inl rfl
  | _ :: _, [], _, _, _ => Or.inr rfl
  | a :: as, b :: bs, [], h1, _ => by simp [isPre] at h1
  | a :: as, b :: bs, c :: cs, h1, h2 => by
      by_cases hac : a = c
      · by_cases hbc : b = c
        · subst hac; subst hbc
          simp only [isPre, if_pos rfl] at h1 h2 ⊢
          exact isPre_comparable h1 h2
        · simp [isPre, hbc] at h2
      · simp [isPre, hac] at h1

@[simp] theorem append_drop_cancel (p a : Path) :
    (p ++ a).drop p.length = a := by
  simp

theorem movePath_append (src dst a : Path) :
    movePath src dst (src ++ a) = dst ++ a := by
  simp [movePath]

theorem movePath_inj {src a b : Path} (ha : isPre src a = true)
    (hb : isPre src b = true) {dst : Path}
    (h : movePath src dst a = movePath src dst b) : a = b := by
  unfold movePath at h
  have h' := List.append_cancel_left h
  rw [eq_append_drop_of_isPre ha, eq_append_drop_of_isPre hb, h']

theorem isPre_take : ∀ (n : Nat) (p : Path), isPre (p.take n) p = true
  | _, [] => by simp
  | 0, _ :: _ => rfl
  | n + 1, a :: as => by simp [isPre, isPre_take n as]

theorem isPre_nil_right : ∀ {p : Path}, isPre p [] = true → p = []
  | [], _ => rfl
  | _ :: _, h => by simp [isPre] at h

theorem isPre_append_singleton : ∀ {t q : Path} {x : String},
    isPre t (q ++ [x]) = true → isPre t q = true ∨ t = q ++ [x]
  | [], _, _, _ => Or.inl rfl
  | a :: as, [], x, h => by
      simp only [List.nil_append, isPre] at h
      by_cases hax : a = x
      · subst hax
        simp only [if_pos rfl] at h
        exact Or.inr (by rw [isPre_nil_right h]; rfl)
      · simp [hax] at h
  | a :: as, c :: cs, x, h => by
      by_cases hac : a = c
      · subst hac
        simp only [List.cons_append, isPre, if_pos rfl] at h
        rcases isPre_append_singleton h with h' | h'
        · exact Or.inl (by simp [isPre, h'])
        · exact Or.inr (by simp [h'])
      · simp [isPre, hac] at h

/-! ### Lookup and membership lemmas -/

@[simp] theorem lookupFile_nil (p : Path) : lookupFile p [] = none := rfl

@[simp] theorem lookupFile_cons (p : Path) (e : Path × Content)
    (es : List (Path × Content)) :
    lookupFile p (e :: es) = if e.1 = p then some e.2 else lookupFile p es := rfl

theorem lookupFile_append_of_none {p : Path} {l1 : List (Path × Content)}
    (l2 : List (Path × Content)) (h : lookupFile p l1 = none) :
    lookupFile p (l1 ++ l2) = lookupFile p l2 := by
  induction l1 with
  | nil => rfl
  | cons e es ih =>
      by_cases he : e.1 = p
      · simp [he] at h
      · simp only [lookupFile_cons, if_neg he] at h
        simpa [he] using ih h

theorem lookupFile_append_of_some {p : Path} {l1 : List (Path × Content)}
    {c : Content} (l2 : List (Path × Content)) (h : lookupFile p l1 = some c) :
    lookupFile p (l1 ++ l2) = some c := by
  induction l1 with
  | nil => simp at h
  | cons e es ih =>
      by_cases he : e.1 = p
      · simp only [lookupFile_cons, if_pos he] at h
        simp [he, h]
      · simp only [lookupFile_cons, if_neg he] at h
        simpa [he] using ih h

theorem lookupFile_eq_none_of_all {p : Path} {l : List (Path × Content)}
    (h : ∀ e ∈ l, e.1 ≠ p) : lookupFile p l = none := by
  induction l with
  | nil => rfl
  | cons e es ih =>
      have he := h e (List.mem_cons_self e es)
      simp only [lookupFile_cons, if_neg he]
      exact ih (fun x hx => h x (List.mem_cons_of_mem e hx))

theorem lookupFile_append (p : Path) (l1 l2 : List (Path × Content)) :
    lookupFile p (l1 ++ l2) =
      match lookupFile p l1 with
      | some c => some c
      | none => lookupFile p l2 := by
  cases h : lookupFile p l1 with
  | none => simpa using lookupFile_append_of_none l2 h
  | some c => simpa using lookupFile_append_of_some l2 h

theorem lookupFile_filter {p : Path} {l : List (Path × Content)}
    {f : Path × Content → Bool} (h : ∀ e ∈ l, e.1 = p → f e = true) :
    lookupFile p (l.filter f) = lookupFile p l := by
  induction l with
  | nil => rfl
  | cons e es ih =>
      have ih' := ih (fun x hx => h x (List.mem_cons_of_mem e hx))
      by_cases he : e.1 = p
      · rw [List.filter_cons, h e (List.mem_cons_self e es) he]
        simp [he]
      · rw [List.filter_cons]
        cases hf : f e
        · simpa [he] using ih'
        · simpa [he] using ih'

/-- Looking up below the destination of a subtree copy finds what a lookup
below the source finds. -/
theorem lookupFile_moved (src dst : Path) (r : Path)
    (l : List (Path × Content)) :
    lookupFile (dst ++ r) (l.filterMap
      (fun e => if isPre src e.1 then some (movePath src dst e.1, e.2) else none)) =
      lookupFile (src ++ r) l := by
  induction l with
  | nil => rfl
  | cons e es ih =>
      obtain ⟨p1, c1⟩ := e
      by_cases hp : isPre src p1
      · by_cases he : p1 = src ++ r
        · subst he
          simp [List.filterMap_cons, hp, movePath_append]
        · have hmv : movePath src dst p1 ≠ dst ++ r := by
            intro hc
            exact he (movePath_inj hp (isPre_append src r)
              (by rw [hc, movePath_append]))
          simp [List.filterMap_cons, hp, hmv, he, ih]
      · have he : p1 ≠ src ++ r := by
          intro hc; rw [hc] at hp; simp at hp
        simp [List.filterMap_cons, hp, he, ih]

/-- Looking up below the destination of an archive extraction finds the
archive's relative entry. -/
theorem lookupFile_unpacked (dst : Path) (r : Path)
    (F : List (Path × Content)) :
    lookupFile (dst ++ r) (F.map (fun e => (dst ++ e.1, e.2))) =
      lookupFile r F := by
  induction F with
  | nil => rfl
  | cons e es ih =>
      by_cases he : e.1 = r
      · simp [he]
      · have h2 : dst ++ e.1 ≠ dst ++ r := by
          intro hc; exact he (List.append_cancel_left hc)
        simp only [List.map_cons, lookupFile_cons, if_neg h2, if_neg he]
        exact ih

theorem containsPath_iff {l : List Path} {p : Path} :
    containsPath l p = true ↔ p ∈ l := by
  simp only [containsPath, List.any_eq_true, decide_eq_true_eq]
  constructor
  · rintro ⟨q, hq, rfl⟩; exact hq
  · intro h; exact ⟨p, h, rfl⟩

theorem sameSet_of_iff {a b : List Path} (h : ∀ x, x ∈ a ↔ x ∈ b) :
    sameSet a b = true := by
  simp only [sameSet, Bool.and_eq_true, List.all_eq_true]
  refine ⟨fun x hx => ?_, fun x hx => ?_⟩
  · exact containsPath_iff.mpr ((h x).mp hx)
  · exact containsPath_iff.mpr ((h x).mpr hx)

/-! ### Projections of the filesystem operations -/

@[simp] theorem files_addDir (fs : FS) (p : Path) :
    (fs.addDir p).files = fs.files := by
  unfold FS.addDir; split <;> rfl

@[simp] theorem files_addDirs (fs : FS) (l : List Path) :
    (fs.addDirs l).files = fs.files := by
  induction l generalizing fs with
  | nil => rfl
  | cons p ps ih => simp [FS.addDirs, List.foldl_cons] at ih ⊢; rw [ih]; simp

@[simp] theorem files_makedirs (fs : FS) (p : Path) :
    (fs.makedirs p).files = fs.files := files_addDirs fs (prefixesOf p)

@[simp] theorem dirs_setFile (fs : FS) (p : Path) (c : Content) :
    (fs.setFile p c).dirs = fs.dirs := rfl

@[simp] theorem files_setFile (fs : FS) (p : Path) (c : Content) :
    (fs.setFile p c).files =
      (p, c) :: fs.files.filter (fun e => !(decide (e.1 = p))) := rfl

@[simp] theorem dirs_makeArchive (fs : FS) (zp sr : Path) :
    (fs.makeArchive zp sr).dirs = fs.dirs := rfl

@[simp] theorem dirs_removeTree (fs : FS) (p : Path) :
    (fs.removeTree p).dirs = fs.dirs.filter (fun d => !(isPre p d)) := rfl

@[simp] theorem files_removeTree (fs : FS) (p : Path) :
    (fs.removeTree p).files = fs.files.filter (fun e => !(isPre p e.1)) := rfl

theorem files_copytreeInto (fs : FS) (src dst : Path) :
    (fs.copytreeInto src dst).files =
      (fs.files.filterMap (fun e =>
        if isPre src e.1 then some (movePath src dst e.1, e.2) else none)) ++
      fs.files.filter (fun e =>
        (fs.files.filterMap (fun e =>
          if isPre src e.1 then some (movePath src dst e.1, e.2) else none)).all
            (fun c => !(decide (c.1 = e.1)))) := by
  simp [FS.copytreeInto]

theorem files_unpackInto (fs : FS) (F : List (Path × Content)) (D : List Path)
    (dst : Path) :
    (fs.unpackInto F D dst).files =
      F.map (fun e => (dst ++ e.1, e.2)) ++
      fs.files.filter (fun e => F.all (fun a => !(decide (dst ++ a.1 = e.1)))) := by
  simp [FS.unpackInto]

theorem mem_dirs_addDir {fs : FS} {p q : Path} :
    q ∈ (fs.addDir p).dirs ↔ q ∈ fs.dirs ∨ q = p := by
  unfold FS.addDir
  split
  · next h =>
      constructor
      · exact Or.inl
      · rintro (hq | rfl)
        · exact hq
        · exact containsPath_iff.mp h
  · simp

theorem mem_dirs_addDirs {fs : FS} {l : List Path} {q : Path} :
    q ∈ (fs.addDirs l).dirs ↔ q ∈ fs.dirs ∨ q ∈ l := by
  induction l generalizing fs with
  | nil => simp [FS.addDirs]
  | cons p ps ih =>
      show q ∈ ((fs.addDir p).addDirs ps).dirs ↔ _
      rw [ih, mem_dirs_addDir]
      simp only [List.mem_cons]
      tauto

theorem mem_prefixesOf {p q : Path} :
    q ∈ prefixesOf p ↔ q ≠ [] ∧ isPre q p = true := by
  simp only [prefixesOf, List.mem_map, List.mem_range]
  constructor
  · rintro ⟨i, hi, rfl⟩
    refine ⟨?_, isPre_take _ _⟩
    intro hc
    have hlen := congrArg List.length hc
    rw [List.length_take] at hlen
    simp only [List.length_nil] at hlen
    omega
  · rintro ⟨hne, hpre⟩
    have hq := eq_append_drop_of_isPre hpre
    have hlen : q.length ≤ p.length := by
      have := congrArg List.length hq
      simp only [List.length_append] at this
      omega
    have hqpos : 0 < q.length := List.length_pos.mpr hne
    refine ⟨q.length - 1, by omega, ?_⟩
    have h1 : q.length - 1 + 1 = q.length := by omega
    rw [h1]
    conv_lhs => rw [hq]
    exact List.take_left q _

theorem mem_dirs_makedirs {fs : FS} {p q : Path} :
    q ∈ (fs.makedirs p).dirs ↔ q ∈ fs.dirs ∨ (q ≠ [] ∧ isPre q p = true) := by
  rw [FS.makedirs, mem_dirs_addDirs, mem_prefixesOf]

theorem mem_dirs_copytreeInto {fs : FS} {src dst q : Path} :
    q ∈ (fs.copytreeInto src dst).dirs ↔
      q ∈ fs.dirs ∨ (q ≠ [] ∧ isPre q dst = true) ∨
        ∃ d ∈ fs.dirs, isPre src d = true ∧ q = movePath src dst d := by
  show q ∈ (((fs.makedirs dst).addDirs _).dirs) ↔ _
  rw [mem_dirs_addDirs, mem_dirs_makedirs]
  simp only [List.mem_filterMap, Option.ite_none_right_eq_some, Option.some.injEq]
  constructor
  · rintro ((h | h) | ⟨d, hd, hpre, rfl⟩)
    · exact Or.inl h
    · exact Or.inr (Or.inl h)
    · exact Or.inr (Or.inr ⟨d, hd, hpre, rfl⟩)
  · rintro (h | h | ⟨d, hd, hpre, rfl⟩)
    · exact Or.inl (Or.inl h)
    · exact Or.inl (Or.inr h)
    · exact Or.inr ⟨d, hd, hpre, rfl⟩

theorem mem_dirs_unpackInto {fs : FS} {F : List (Path × Content)}
    {D : List Path} {dst q : Path} :
    q ∈ (fs.unpackInto F D dst).dirs ↔
      q ∈ fs.dirs ∨ ∃ d ∈ D, q = dst ++ d := by
  show q ∈ ((fs.addDirs (D.map (fun d => dst ++ d))).dirs) ↔ _
  rw [mem_dirs_addDirs]
  simp only [List.mem_map]
  constructor
  · rintro (h | ⟨d, hd, rfl⟩)
    · exact Or.inl h
    · exact Or.inr ⟨d, hd, rfl⟩
  · rintro (h | ⟨d, hd, rfl⟩)
    · exact Or.inl h
    · exact Or.inr ⟨d, hd, rfl⟩

theorem mem_dirs_removeTree {fs : FS} {t q : Path} :
    q ∈ (fs.removeTree t).dirs ↔ q ∈ fs.dirs ∧ isPre t q = false := by
  simp [FS.removeTree, List.mem_filter]

theorem existsPath_iff {fs : FS} {p : Path} :
    fs.existsPath p = true ↔ p ∈ fs.dirs ∨ (lookupFile p fs.files).isSome := by
  simp [FS.existsPath, containsPath_iff]

/-! ### Restriction lemmas -/

theorem restrictFiles_append (p : Path) (l1 l2 : List (Path × Content)) :
    restrictFiles p (l1 ++ l2) = restrictFiles p l1 ++ restrictFiles p l2 :=
  List.filterMap_append _ _ _

theorem restrictDirs_append (p : Path) (l1 l2 : List Path) :
    restrictDirs p (l1 ++ l2) = restrictDirs p l1 ++ restrictDirs p l2 :=
  List.filterMap_append _ _ _

theorem restrictFiles_eq_nil {p : Path} {l : List (Path × Content)}
    (h : ∀ e ∈ l, isPre p e.1 = false) : restrictFiles p l = [] := by
  induction l with
  | nil => rfl
  | cons e es ih =>
      rw [restrictFiles, List.filterMap_cons_none
        (by simp [h e (List.mem_cons_self e es)])]
      exact ih (fun x hx => h x (List.mem_cons_of_mem e hx))

theorem restrictFiles_cons (p : Path) (e : Path × Content)
    (es : List (Path × Content)) :
    restrictFiles p (e :: es) =
      if isPre p e.1 then (e.1.drop p.length, e.2) :: restrictFiles p es
      else restrictFiles p es := by
  rw [restrictFiles, List.filterMap_cons]
  by_cases hp : isPre p e.1 <;> simp [hp, restrictFiles]

theorem restrictFiles_filter {p : Path} {l : List (Path × Content)}
    {f : Path × Content → Bool} (h : ∀ e ∈ l, isPre p e.1 = true → f e = true) :
    restrictFiles p (l.filter f) = restrictFiles p l := by
  induction l with
  | nil => rfl
  | cons e es ih =>
      have ih' := ih (fun x hx => h x (List.mem_cons_of_mem e hx))
      rw [List.filter_cons]
      by_cases hp : isPre p e.1
      · rw [if_pos (h e (List.mem_cons_self e es) hp)]
        rw [restrictFiles_cons, restrictFiles_cons, if_pos hp, if_pos hp, ih']
      · cases hf : f e
        · rw [if_neg (by simp [hf])]
          rw [restrictFiles_cons, if_neg hp, ih']
        · rw [if_pos rfl]
          rw [restrictFiles_cons, restrictFiles_cons, if_neg hp, if_neg hp, ih']

/-- Restricting a copied block at its destination yields the restriction of
the originals at the source. -/
theorem restrictFiles_moved (src dst : Path) (l : List (Path × Content)) :
    restrictFiles dst (l.filterMap (fun e =>
      if isPre src e.1 then some (movePath src dst e.1, e.2) else none)) =
      restrictFiles src l := by
  induction l with
  | nil => rfl
  | cons e es ih =>
      rw [List.filterMap_cons]
      by_cases hp : isPre src e.1
      · have h2 : isPre dst (movePath src dst e.1) = true := isPre_append _ _
        have h3 : (movePath src dst e.1).drop dst.length = e.1.drop src.length := by
          simp [movePath]
        simp only [hp, if_pos]
        rw [restrictFiles_cons, restrictFiles_cons, if_pos h2, if_pos hp, h3, ih]
      · simp only [hp, Bool.false_eq_true, if_false]
        rw [restrictFiles_cons, if_neg hp, ih]

/-- Restricting extracted archive entries at the extraction root yields the
archive entries back. -/
theorem restrictFiles_mapped (dst : Path) (F : List (Path × Content)) :
    restrictFiles dst (F.map (fun e => (dst ++ e.1, e.2))) = F := by
  induction F with
  | nil => rfl
  | cons e es ih =>
      rw [List.map_cons, restrictFiles, List.filterMap_cons]
      simp only [isPre_append, if_pos, append_drop_cancel]
      rw [restrictFiles] at ih
      rw [ih]

theorem mem_restrictDirs {p : Path} {l : List Path} {r : Path} :
    r ∈ restrictDirs p l ↔ r ≠ [] ∧ (p ++ r) ∈ l := by
  simp only [restrictDirs, List.mem_filterMap]
  constructor
  · rintro ⟨d, hd, h⟩
    by_cases hb : (isPre p d && !(decide (d = p))) = true
    · rw [if_pos hb] at h
      injection h with h'
      subst h'
      rw [Bool.and_eq_true] at hb
      have hpre : isPre p d = true := hb.1
      have hdp : d ≠ p := by simpa using hb.2
      have hdrop : d = p ++ d.drop p.length := eq_append_drop_of_isPre hpre
      refine ⟨?_, ?_⟩
      · intro hnil
        apply hdp
        rw [hdrop, hnil, List.append_nil]
      · rw [← hdrop]
        exact hd
    · rw [if_neg hb] at h
      cases h
  · rintro ⟨hne, hmem⟩
    refine ⟨p ++ r, hmem, ?_⟩
    have h1 : isPre p (p ++ r) = true := isPre_append _ _
    have h2 : p ++ r ≠ p := by
      intro hc
      exact hne (by simpa using congrArg (List.drop p.length) hc)
    simp [h1, h2]

/-! ### Freshness and cleanup lemmas -/

theorem freshFor_iff {fs : FS} {t : Path} :
    fs.freshFor t = true ↔
      (∀ d ∈ fs.dirs, isPre t d = false) ∧
      (∀ e ∈ fs.files, isPre t e.1 = false) := by
  simp [FS.freshFor, List.all_eq_true]

/-- Removing the staging tree leaves nothing at or below it: the cleanup
half of the staging-area invariant. -/
theorem freshFor_removeTree (fs : FS) (t : Path) :
    (fs.removeTree t).freshFor t = true := by
  rw [freshFor_iff]
  constructor
  · intro d hd
    exact (mem_dirs_removeTree.mp hd).2
  · intro e he
    rw [files_removeTree] at he
    have := List.mem_filter.mp he
    simpa using this.2

theorem filter_filter_of_imp {α : Type} {l : List α} {f g : α → Bool}
    (h : ∀ e ∈ l, f e = true → g e = true) :
    (l.filter g).filter f = l.filter f := by
  induction l with
  | nil => rfl
  | cons e es ih =>
      have ih' := ih (fun x hx => h x (List.mem_cons_of_mem e hx))
      rw [List.filter_cons, List.filter_cons]
      by_cases hf : f e
      · have hg := h e (List.mem_cons_self e es) hf
        rw [if_pos hg, List.filter_cons, if_pos hf, if_pos hf, ih']
      · cases hg : g e
        · rw [if_neg (by simp [hg])]
          rw [if_neg (by simp [hf]), ih']
        · rw [if_pos rfl, List.filter_cons, if_neg (by simp at hf; simp [hf])]
          rw [if_neg (by simp at hf; simp [hf]), ih']

theorem mem_moved_isPre {l : List (Path × Content)} {src dst : Path}
    {x : Path × Content}
    (hx : x ∈ l.filterMap (fun e =>
      if isPre src e.1 then some (movePath src dst e.1, e.2) else none)) :
    isPre dst x.1 = true := by
  obtain ⟨e, _, he⟩ := List.mem_filterMap.mp hx
  by_cases hp : isPre src e.1
  · rw [if_pos hp] at he
    injection he with he'
    rw [← he']
    exact isPre_append _ _
  · rw [if_neg hp] at he
    cases he

theorem mem_mapped_isPre {F : List (Path × Content)} {dst : Path}
    {x : Path × Content}
    (hx : x ∈ F.map (fun e => (dst ++ e.1, e.2))) : isPre dst x.1 = true := by
  obtain ⟨e, _, he⟩ := List.mem_map.mp hx
  rw [← he]
  exact isPre_append _ _

/-- Entries outside `t` pass the merge filter of a copy whose destination
lies below `t`. -/
theorem kept_of_outside {copied : List (Path × Content)} {t : Path}
    (hc : ∀ c ∈ copied, isPre t c.1 = true) {e : Path × Content}
    (he : isPre t e.1 = false) :
    copied.all (fun c => !(decide (c.1 = e.1))) = true := by
  rw [List.all_eq_true]
  intro c hcm
  have := hc c hcm
  simp only [Bool.not_eq_true', decide_eq_false_iff_not]
  intro hcc
  rw [hcc] at this
  rw [this] at he
  cases he

/-- A subtree copy whose destination lies below `t` does not change the
files outside `t`. -/
theorem filter_out_copytree {fs : FS} {src dst t : Path}
    (hdst : isPre t dst = true) :
    ((fs.copytreeInto src dst).files).filter (fun e => !(isPre t e.1)) =
      fs.files.filter (fun e => !(isPre t e.1)) := by
  rw [files_copytreeInto, List.filter_append]
  have h1 : (fs.files.filterMap (fun e =>
      if isPre src e.1 then some (movePath src dst e.1, e.2) else none)).filter
        (fun e => !(isPre t e.1)) = [] := by
    rw [List.filter_eq_nil_iff]
    intro x hx
    simp [isPre_trans hdst (mem_moved_isPre hx)]
  rw [h1, List.nil_append]
  apply filter_filter_of_imp
  intro e _ hf
  apply kept_of_outside
  · intro c hcm
    exact isPre_trans hdst (mem_moved_isPre hcm)
  · simpa using hf

/-- An archive extraction below `t` does not change the files outside `t`. -/
theorem filter_out_unpack {fs : FS} {F : List (Path × Content)}
    {D : List Path} {t : Path} :
    ((fs.unpackInto F D t).files).filter (fun e => !(isPre t e.1)) =
      fs.files.filter (fun e => !(isPre t e.1)) := by
  rw [files_unpackInto, List.filter_append]
  have h1 : (F.map (fun e => (t ++ e.1, e.2))).filter
      (fun e => !(isPre t e.1)) = [] := by
    rw [List.filter_eq_nil_iff]
    intro x hx
    simp [mem_mapped_isPre hx]
  rw [h1, List.nil_append]
  apply filter_filter_of_imp
  intro e _ hf
  rw [List.all_eq_true]
  intro a _
  simp only [Bool.not_eq_true', decide_eq_false_iff_not]
  intro hc
  rw [← hc] at hf
  simp [isPre_append] at hf

/-- Writing a file below `t` does not change the files outside `t`. -/
theorem filter_out_setFile {fs : FS} {p : Path} {c : Content} {t : Path}
    (hp : isPre t p = true) :
    ((fs.setFile p c).files).filter (fun e => !(isPre t e.1)) =
      fs.files.filter (fun e => !(isPre t e.1)) := by
  rw [files_setFile, List.filter_cons, if_neg (by simp [hp])]
  apply filter_filter_of_imp
  intro e _ hf
  simp only [Bool.not_eq_true', decide_eq_false_iff_not]
  intro hc
  rw [hc] at hf
  rw [hp] at hf
  cases hf

theorem filter_fresh {l : List (Path × Content)} {t : Path}
    (hf : ∀ e ∈ l, isPre t e.1 = false) :
    l.filter (fun e => !(isPre t e.1)) = l := by
  rw [List.filter_eq_self]
  intro e he
  simp [hf e he]

@[simp] theorem files_destStep (fs0 : FS) (dest : Path) :
    (if fs0.existsPath dest then fs0 else fs0.makedirs dest).files = fs0.files := by
  split <;> simp

/-! ### C4: the staging area is released on every exit path -/

theorem backup_releases_staging (root dest : Path) (rE : Except String String)
    (ts : String) (tmp : Path) (fs0 : FS) :
    ((execute_backup_operation root dest rE ts tmp fs0).fs).freshFor tmp = true := by
  unfold execute_backup_operation
  cases rE with
  | error stderr => exact freshFor_removeTree _ _
  | ok rc => exact freshFor_removeTree _ _

theorem restore_releases_staging (root arch : Path)
    (rI : Content → Except String Unit) (tmp : Path) (fs0 : FS) :
    ((execute_restore_operation root arch rI tmp fs0).fs).freshFor tmp = true := by
  unfold execute_restore_operation
  dsimp only
  split
  · split
    · split
      · exact freshFor_removeTree _ _
      · exact freshFor_removeTree _ _
    · exact freshFor_removeTree _ _
  · exact freshFor_removeTree _ _

/-- C4: on every exit path of backup (success or registry-export failure)
and of restore (success, extraction failure, or registry-import failure),
the staging directory acquired by that operation is released before the
operation returns: nothing at or below the staging path remains on disk in
the returned filesystem.  Each operation works on its own freshly supplied
staging path, which is never part of the result. -/
theorem c4_staging_released_every_path (root dest : Path)
    (rE : Except String String) (ts : String) (tmpB : Path) (fsB : FS)
    (root2 arch : Path) (rI : Content → Except String Unit) (tmpR : Path)
    (fsR : FS) :
    ((execute_backup_operation root dest rE ts tmpB fsB).fs).freshFor tmpB = true ∧
    ((execute_restore_operation root2 arch rI tmpR fsR).fs).freshFor tmpR = true :=
  ⟨backup_releases_staging root dest rE ts tmpB fsB,
    restore_releases_staging root2 arch rI tmpR fsR⟩

@[simp] theorem backup_fs1_files (dest : Path) (fs0 : FS) :
    (backup_fs1 dest fs0).files = fs0.files := by
  rw [backup_fs1]
  split <;> simp

@[simp] theorem backup_fs2_files (dest tmp : Path) (fs0 : FS) :
    (backup_fs2 dest tmp fs0).files = fs0.files := by
  rw [backup_fs2, files_addDir, backup_fs1_files]

/-- The staging copies of backup leave the files outside the staging path
unchanged. -/
theorem backup_fs3_filter (root dest tmp : Path) (fs0 : FS) :
    (backup_fs3 root dest tmp fs0).files.filter (fun e => !(isPre tmp e.1)) =
      fs0.files.filter (fun e => !(isPre tmp e.1)) := by
  rw [backup_fs3]
  split
  · rw [filter_out_copytree (isPre_append tmp ["ModsSource"]), backup_fs2_files]
  · rw [backup_fs2_files]

theorem backup_fs4_filter (root dest tmp : Path) (fs0 : FS) :
    (backup_fs4 root dest tmp fs0).files.filter (fun e => !(isPre tmp e.1)) =
      fs0.files.filter (fun e => !(isPre tmp e.1)) := by
  rw [backup_fs4]
  split
  · rw [filter_out_copytree (isPre_append tmp ["Engine", "Mods"]),
      backup_fs3_filter]
  · exact backup_fs3_filter root dest tmp fs0

/-- C2: when the registry export tool exits non-zero, backup returns
success=false, the returned log contains the message carrying the tool's
captured stderr text, no file is created anywhere (in particular no archive
in the destination folder: the file set is exactly the one from before the
call), and nothing of the staging directory remains on disk. -/
theorem c2_backup_export_failure (root dest : Path) (stderr : String)
    (ts : String) (tmp : Path) (fs0 : FS) (hf : fs0.freshFor tmp = true) :
    (execute_backup_operation root dest (.error stderr) ts tmp fs0).success = false ∧
    regExportErrMsg stderr ∈
      (execute_backup_operation root dest (.error stderr) ts tmp fs0).log ∧
    (execute_backup_operation root dest (.error stderr) ts tmp fs0).fs.files =
      fs0.files ∧
    ((execute_backup_operation root dest (.error stderr) ts tmp fs0).fs).freshFor
      tmp = true := by
  have hfl := (freshFor_iff.mp hf).2
  refine ⟨rfl, ?_, ?_, backup_releases_staging root dest (.error stderr) ts tmp fs0⟩
  · unfold execute_backup_operation
    dsimp only
    exact List.mem_append_right _ (by simp)
  · unfold execute_backup_operation
    dsimp only
    rw [files_removeTree, backup_fs4_filter]
    exact filter_fresh hfl

/-- Creating the staging directory and then removing the staging tree is a
no-op on a filesystem that held nothing at or below the staging path. -/
theorem removeTree_addDir {fs0 : FS} {tmp : Path} (hf : fs0.freshFor tmp = true) :
    (fs0.addDir tmp).removeTree tmp = fs0 := by
  obtain ⟨hd, hfl⟩ := freshFor_iff.mp hf
  have htmp : ¬ containsPath fs0.dirs tmp = true := by
    rw [containsPath_iff]
    intro hmem
    have := hd tmp hmem
    simp at this
  ext1
  · rw [dirs_removeTree]
    unfold FS.addDir
    rw [if_neg htmp]
    dsimp only
    rw [List.filter_append]
    have h1 : fs0.dirs.filter (fun d => !(isPre tmp d)) = fs0.dirs := by
      rw [List.filter_eq_self]
      intro d hdm
      simp [hd d hdm]
    have h2 : [tmp].filter (fun d => !(isPre tmp d)) = ([] : List Path) := by
      simp
    rw [h1, h2, List.append_nil]
  · rw [files_removeTree, files_addDir]
    exact filter_fresh hfl

/-- C3: restoring from a path that does not hold a valid archive fails:
success=false, the returned log records the extraction error, the
filesystem — in particular the installation root — is left completely
unchanged, and the result does not depend on the registry import tool at
all (no directory copy was performed and no import attempted). -/
theorem c3_restore_invalid_archive (root arch : Path)
    (rI rI' : Content → Except String Unit) (tmp : Path) (fs0 : FS)
    (hf : fs0.freshFor tmp = true)
    (hbad : isZipAt fs0 arch = false) :
    (execute_restore_operation root arch rI tmp fs0).success = false ∧
    extractErrMsg arch ∈ (execute_restore_operation root arch rI tmp fs0).log ∧
    (execute_restore_operation root arch rI tmp fs0).fs = fs0 ∧
    execute_restore_operation root arch rI tmp fs0 =
      execute_restore_operation root arch rI' tmp fs0 := by
  unfold execute_restore_operation
  dsimp only
  rw [files_addDir]
  cases hl : lookupFile arch fs0.files with
  | none =>
      exact ⟨rfl, by simp, removeTree_addDir hf, rfl⟩
  | some c =>
      cases c with
      | bytes s =>
          exact ⟨rfl, by simp, removeTree_addDir hf, rfl⟩
      | zip F D =>
          rw [isZipAt, hl] at hbad
          cases hbad

/-! ### Lookup below the staging path across restore's steps -/

/-- A subtree copy into the installation root does not affect lookups below
the (disjoint) staging path. -/
theorem lookup_tmp_copytree {fs : FS} {src : Path} {dstRoot x tmp r : Path}
    (h1 : isPre tmp dstRoot = false) (h2 : isPre dstRoot tmp = false) :
    lookupFile (tmp ++ r) ((fs.copytreeInto src (dstRoot ++ x)).files) =
      lookupFile (tmp ++ r) fs.files := by
  have hkey : ∀ e ∈ fs.files.filterMap (fun e =>
      if isPre src e.1 then some (movePath src (dstRoot ++ x) e.1, e.2) else none),
      e.1 ≠ tmp ++ r := by
    intro e he hc
    have hx : isPre dstRoot e.1 = true :=
      isPre_trans (isPre_append dstRoot x) (mem_moved_isPre he)
    rw [hc] at hx
    rcases isPre_comparable hx (isPre_append tmp r) with hcmp | hcmp
    · rw [hcmp] at h2; cases h2
    · rw [hcmp] at h1; cases h1
  rw [files_copytreeInto,
    lookupFile_append_of_none _ (lookupFile_eq_none_of_all hkey)]
  apply lookupFile_filter
  intro e _ hep
  rw [List.all_eq_true]
  intro c hcm
  simp only [Bool.not_eq_true', decide_eq_false_iff_not]
  intro hcc
  exact hkey c hcm (by rw [hcc, hep])

/-- After extraction, a lookup below the staging path is a lookup of the
archive's relative entry (the surrounding filesystem holds nothing below
the staging path). -/
theorem lookup_tmp_unpack {fs1 : FS} {F : List (Path × Content)}
    {D : List Path} {tmp r : Path}
    (hfl : ∀ e ∈ fs1.files, isPre tmp e.1 = false) :
    lookupFile (tmp ++ r) ((fs1.unpackInto F D tmp).files) = lookupFile r F := by
  rw [files_unpackInto, lookupFile_append, lookupFile_unpacked]
  cases h : lookupFile r F with
  | some c => rfl
  | none =>
      apply lookupFile_eq_none_of_all
      intro e he hc
      have hmem := (List.mem_filter.mp he).1
      have := hfl e hmem
      rw [hc] at this
      simp at this

/-- After the staged `ModsSource` copy of restore, a lookup below the
staging path is still a lookup of the archive's relative entry. -/
theorem lookup_tmp_restore_fs3 {root tmp : Path} {F : List (Path × Content)}
    {D : List Path} {fs0 : FS} (r : Path)
    (hfl : ∀ e ∈ fs0.files, isPre tmp e.1 = false)
    (h1 : isPre tmp root = false) (h2 : isPre root tmp = false) :
    lookupFile (tmp ++ r) ((restore_fs3 root tmp F D fs0).files) =
      lookupFile r F := by
  have hfl1 : ∀ e ∈ (fs0.addDir tmp).files, isPre tmp e.1 = false := by
    rw [files_addDir]
    exact hfl
  rw [restore_fs3]
  split
  · rw [lookup_tmp_copytree h1 h2, restore_fs2, lookup_tmp_unpack hfl1]
  · rw [restore_fs2, lookup_tmp_unpack hfl1]

/-- After all directory copies of restore, a lookup below the staging path
is a lookup of the archive's relative entry. -/
theorem lookup_tmp_restore_fs4 {root tmp : Path} {F : List (Path × Content)}
    {D : List Path} {fs0 : FS} (r : Path)
    (hfl : ∀ e ∈ fs0.files, isPre tmp e.1 = false)
    (h1 : isPre tmp root = false) (h2 : isPre root tmp = false) :
    lookupFile (tmp ++ r) ((restore_fs4 root tmp F D fs0).files) =
      lookupFile r F := by
  rw [restore_fs4]
  split
  · rw [lookup_tmp_copytree h1 h2, lookup_tmp_restore_fs3 r hfl h1 h2]
  · rw [lookup_tmp_restore_fs3 r hfl h1 h2]

/-- The success flag of restore equals the spec's success condition:
success unless extraction failed or a provided registry file failed to
import. -/
theorem restore_success_refines (root arch : Path)
    (rI : Content → Except String Unit) (tmp : Path) (fs0 : FS)
    (hf : fs0.freshFor tmp = true)
    (h1 : isPre tmp root = false) (h2 : isPre root tmp = false) :
    (execute_restore_operation root arch rI tmp fs0).success =
      spec_restore_success arch fs0 rI := by
  have hfl : ∀ e ∈ fs0.files, isPre tmp e.1 = false := (freshFor_iff.mp hf).2
  unfold execute_restore_operation
  dsimp only
  rw [files_addDir]
  cases hl : lookupFile arch fs0.files with
  | none => rw [spec_restore_success, hl]
  | some c =>
      cases c with
      | bytes s => rw [spec_restore_success, hl]
      | zip F D =>
          rw [spec_restore_success, hl]
          dsimp only
          rw [lookup_tmp_restore_fs4 ["Windhawk.reg"] hfl h1 h2]
          cases hr : lookupFile ["Windhawk.reg"] F with
          | none => rfl
          | some c =>
              dsimp only
              cases rI c <;> rfl

/-- C5: restore returns success=true exactly when archive decompression
succeeded and the registry import did not fail (the spec-side success
condition); and in the particular run on an archive that carries no
`Windhawk.reg` entry, restore skips the import, logs the warning and still
returns success=true. -/
theorem c5_restore_success_condition (root arch : Path)
    (rI : Content → Except String Unit) (tmp : Path) (fs0 : FS)
    (hf : fs0.freshFor tmp = true)
    (h1 : isPre tmp root = false) (h2 : isPre root tmp = false)
    (root' arch' : Path) (rI' : Content → Except String Unit) (tmp' : Path)
    (fs0' : FS) (F' : List (Path × Content)) (D' : List Path)
    (hf' : fs0'.freshFor tmp' = true)
    (h1' : isPre tmp' root' = false) (h2' : isPre root' tmp' = false)
    (hl' : lookupFile arch' fs0'.files = some (.zip F' D'))
    (hr' : lookupFile ["Windhawk.reg"] F' = none) :
    (execute_restore_operation root arch rI tmp fs0).success =
      spec_restore_success arch fs0 rI ∧
    (execute_restore_operation root' arch' rI' tmp' fs0').success = true ∧
    regMissingMsg ∈ (execute_restore_operation root' arch' rI' tmp' fs0').log := by
  refine ⟨restore_success_refines root arch rI tmp fs0 hf h1 h2, ?_, ?_⟩
  · rw [restore_success_refines root' arch' rI' tmp' fs0' hf' h1' h2',
      spec_restore_success, hl']
    dsimp only
    rw [hr']
  · have hfl' : ∀ e ∈ fs0'.files, isPre tmp' e.1 = false :=
      (freshFor_iff.mp hf').2
    unfold execute_restore_operation
    dsimp only
    rw [files_addDir, hl']
    dsimp only
    rw [lookup_tmp_restore_fs4 ["Windhawk.reg"] hfl' h1' h2', hr']
    dsimp only
    exact List.mem_append_right _ (by simp)

/-! ### Further lookup and membership helpers -/

theorem existsPath_eq_false_iff {fs : FS} {p : Path} :
    fs.existsPath p = false ↔ p ∉ fs.dirs ∧ lookupFile p fs.files = none := by
  rw [← Bool.not_eq_true, existsPath_iff]
  simp [Option.isSome_iff_ne_none]

theorem lookup_removeTree_out {fs : FS} {t q : Path} (h : isPre t q = false) :
    lookupFile q ((fs.removeTree t).files) = lookupFile q fs.files := by
  rw [files_removeTree]
  apply lookupFile_filter
  intro e _ he1
  simp [he1, h]

theorem lookup_setFile_self (fs : FS) (p : Path) (c : Content) :
    lookupFile p ((fs.setFile p c).files) = some c := by
  simp [files_setFile]

theorem mem_restrictFiles {p : Path} {l : List (Path × Content)}
    {x : Path × Content} :
    x ∈ restrictFiles p l ↔
      ∃ e ∈ l, isPre p e.1 = true ∧ x = (e.1.drop p.length, e.2) := by
  simp only [restrictFiles, List.mem_filterMap]
  constructor
  · rintro ⟨e, he, h⟩
    by_cases hp : isPre p e.1
    · rw [if_pos hp] at h
      injection h with h'
      exact ⟨e, he, hp, h'.symm⟩
    · rw [if_neg hp] at h
      cases h
  · rintro ⟨e, he, hp, rfl⟩
    exact ⟨e, he, by rw [if_pos hp]⟩

/-! ### Distinctness of the log messages -/

theorem strNe_of_getElem {a b : String} (i : Nat)
    (h : a.data[i]? ≠ b.data[i]?) : a ≠ b := by
  intro hc
  rw [hc] at h
  exact h rfl

theorem data_getElem_append {c : String} (s : String) {i : Nat}
    (hi : i < c.data.length) : (c ++ s).data[i]? = c.data[i]? := by
  rw [String.data_append]
  exact List.getElem?_append_left hi

theorem msWarn_ne_msStaged (r : Path) : msWarnMsg r ≠ msStagedMsg := by
  apply strNe_of_getElem 0
  rw [msWarnMsg, data_getElem_append _ (by decide)]
  decide

theorem msWarn_ne_emStaged (r : Path) : msWarnMsg r ≠ emStagedMsg := by
  apply strNe_of_getElem 0
  rw [msWarnMsg, data_getElem_append _ (by decide)]
  decide

theorem msWarn_ne_emWarn (r1 r2 : Path) : msWarnMsg r1 ≠ emWarnMsg r2 := by
  apply strNe_of_getElem 9
  rw [msWarnMsg, emWarnMsg, data_getElem_append _ (by decide),
    data_getElem_append _ (by decide)]
  decide

theorem msWarn_ne_regOk (r : Path) : msWarnMsg r ≠ regExportOkMsg := by
  apply strNe_of_getElem 0
  rw [msWarnMsg, data_getElem_append _ (by decide)]
  decide

theorem msWarn_ne_complete (r dest : Path) (ts : String) :
    msWarnMsg r ≠ backupCompleteMsg dest ts := by
  apply strNe_of_getElem 0
  rw [msWarnMsg, backupCompleteMsg, data_getElem_append _ (by decide)]
  have h1 : 0 < ("\nOperation Complete: Backup archive created at:\n"
      ++ pathStr (dest ++ ["windhawk-backup_" ++ ts])).data.length := by
    rw [String.data_append, List.length_append]
    have h2 : 0 <
        ("\nOperation Complete: Backup archive created at:\n").data.length := by
      decide
    omega
  rw [data_getElem_append _ h1, data_getElem_append _ (by decide)]
  decide

/-! ### The staged tree when ModsSource is absent -/

/-- When `installationRoot/ModsSource` does not exist (and neither the
destination-folder creation nor the staging directory can bring it into
existence), backup's `ModsSource` existence check is false. -/
theorem backup_msExists_false {root dest tmp : Path} {fs0 : FS}
    (hms : fs0.existsPath (root ++ ["ModsSource"]) = false)
    (h2 : isPre root tmp = false)
    (hrd : isPre root dest = false) :
    backup_msExists root dest tmp fs0 = false := by
  rw [backup_msExists, existsPath_eq_false_iff]
  obtain ⟨hd0, hl0⟩ := existsPath_eq_false_iff.mp hms
  constructor
  · intro hmem
    rw [backup_fs2, mem_dirs_addDir] at hmem
    rcases hmem with hmem | hmem
    · rw [backup_fs1] at hmem
      by_cases hde : fs0.existsPath dest = true
      · rw [if_pos hde] at hmem
        exact hd0 hmem
      · rw [if_neg hde, mem_dirs_makedirs] at hmem
        rcases hmem with hmem | ⟨_, hpre⟩
        · exact hd0 hmem
        · have hcon : isPre root dest = true :=
            isPre_trans (isPre_append root ["ModsSource"]) hpre
          rw [hcon] at hrd
          cases hrd
    · have hcon : isPre root tmp = true := by
        rw [← hmem]
        exact isPre_append root ["ModsSource"]
      rw [hcon] at h2
      cases h2
  · rw [backup_fs2_files]
    exact hl0

/-- A directory of `backup_fs2` lying below the staging path is the staging
directory itself. -/
theorem backup_fs2_dirs_under_tmp {dest tmp : Path} {fs0 : FS}
    (hfd : ∀ d ∈ fs0.dirs, isPre tmp d = false)
    (htd : isPre tmp dest = false)
    {d : Path} (hd : d ∈ (backup_fs2 dest tmp fs0).dirs)
    (hpre : isPre tmp d = true) : d = tmp := by
  rw [backup_fs2, mem_dirs_addDir] at hd
  rcases hd with hd | rfl
  · rw [backup_fs1] at hd
    by_cases hde : fs0.existsPath dest = true
    · rw [if_pos hde] at hd
      rw [hfd d hd] at hpre
      cases hpre
    · rw [if_neg hde, mem_dirs_makedirs] at hd
      rcases hd with hd | ⟨_, hq⟩
      · rw [hfd d hd] at hpre
        cases hpre
      · have := isPre_trans hpre hq
        rw [htd] at this
        cases this
  · rfl

/-- With `ModsSource` absent, every staged file entry is outside a
top-level `ModsSource`. -/
theorem backup_staged_file_not_ms {root dest tmp : Path} {fs0 : FS}
    (hms2 : backup_msExists root dest tmp fs0 = false)
    (hfl : ∀ e ∈ fs0.files, isPre tmp e.1 = false)
    {e : Path × Content} (he : e ∈ (backup_fs4 root dest tmp fs0).files)
    (hpre : isPre tmp e.1 = true) :
    isPre ["ModsSource"] (e.1.drop tmp.length) = false := by
  have hfs3 : backup_fs3 root dest tmp fs0 = backup_fs2 dest tmp fs0 := by
    rw [backup_fs3, hms2]
    simp
  rw [backup_fs4, hfs3] at he
  have hbase : ∀ x : Path × Content, x ∈ (backup_fs2 dest tmp fs0).files →
      isPre tmp x.1 = true → False := by
    intro x hx hxp
    rw [backup_fs2_files] at hx
    rw [hfl x hx] at hxp
    cases hxp
  by_cases hem : backup_emExists root dest tmp fs0 = true
  · rw [if_pos hem, files_copytreeInto] at he
    rcases List.mem_append.mp he with he | he
    · obtain ⟨e0, _, heq⟩ := List.mem_filterMap.mp he
      by_cases hp0 : isPre (root ++ ["Engine", "Mods"]) e0.1
      · rw [if_pos hp0] at heq
        injection heq with heq'
        rw [← heq']
        dsimp only [movePath]
        rw [List.append_assoc, append_drop_cancel]
        simp [isPre]
      · rw [if_neg hp0] at heq
        cases heq
    · exact ((hbase e (List.mem_filter.mp he).1) hpre).elim
  · rw [if_neg hem] at he
    exact ((hbase e he) hpre).elim

/-- With `ModsSource` absent, every staged directory is outside a top-level
`ModsSource`. -/
theorem backup_staged_dir_not_ms {root dest tmp : Path} {fs0 : FS}
    (hms2 : backup_msExists root dest tmp fs0 = false)
    (hfd : ∀ d ∈ fs0.dirs, isPre tmp d = false)
    (htd : isPre tmp dest = false)
    {d : Path} (hd : d ∈ (backup_fs4 root dest tmp fs0).dirs)
    (hpre : isPre tmp d = true) (hne : d ≠ tmp) :
    isPre ["ModsSource"] (d.drop tmp.length) = false := by
  have hfs3 : backup_fs3 root dest tmp fs0 = backup_fs2 dest tmp fs0 := by
    rw [backup_fs3, hms2]
    simp
  rw [backup_fs4, hfs3] at hd
  have hEM : ∀ r : Path, isPre ["ModsSource"] r = true →
      isPre r ["Engine", "Mods"] = true → False := by
    intro r hr1 hr2
    have := isPre_trans hr1 hr2
    rw [show isPre ["ModsSource"] ["Engine", "Mods"] = false by decide] at this
    cases this
  by_cases hem : backup_emExists root dest tmp fs0 = true
  · rw [if_pos hem, mem_dirs_copytreeInto] at hd
    rcases hd with hd | ⟨hdne, hdpre⟩ | ⟨d0, _, _, rfl⟩
    · exact absurd (backup_fs2_dirs_under_tmp hfd htd hd hpre) hne
    · cases hbad : isPre ["ModsSource"] (d.drop tmp.length)
      · rfl
      · exfalso
        have hdrop : d = tmp ++ d.drop tmp.length := eq_append_drop_of_isPre hpre
        have : isPre (tmp ++ d.drop tmp.length) (tmp ++ ["Engine", "Mods"]) = true := by
          rw [← hdrop]
          exact hdpre
        rw [isPre_cancel] at this
        exact hEM _ hbad this
    · dsimp only [movePath]
      rw [List.append_assoc, append_drop_cancel]
      simp [isPre]
  · rw [if_neg hem] at hd
    exact absurd (backup_fs2_dirs_under_tmp hfd htd hd hpre) hne

/-- C7 (amended: the destination folder must not lie under the installation
root, and the staging path is fresh and disjoint as `tempfile` guarantees):
when `installationRoot/ModsSource` does not exist, the backup operation
continues (and succeeds when the registry export succeeds), the produced
archive holds no `ModsSource` entry — no file and no directory at or below
a top-level `ModsSource` — and the returned log holds exactly one copy of
the warning naming the missing `ModsSource` directory. Without the
amendment the property fails: a destination folder inside
`installationRoot/ModsSource` makes `os.makedirs` create `ModsSource`
before the existence check, so no warning is logged and the archive does
hold a `ModsSource` entry. -/
theorem c7_backup_missing_modssource (root dest : Path) (rc ts : String)
    (tmp : Path) (fs0 : FS)
    (hms : fs0.existsPath (root ++ ["ModsSource"]) = false)
    (hf : fs0.freshFor tmp = true)
    (h2 : isPre root tmp = false)
    (hrd : isPre root dest = false)
    (hzp : isPre tmp (dest ++ [zipFileName ts]) = false) :
    (execute_backup_operation root dest (.ok rc) ts tmp fs0).success = true ∧
    isZipAt (execute_backup_operation root dest (.ok rc) ts tmp fs0).fs
      (dest ++ [zipFileName ts]) = true ∧
    archiveMentions (execute_backup_operation root dest (.ok rc) ts tmp fs0).fs
      (dest ++ [zipFileName ts]) "ModsSource" = false ∧
    ((execute_backup_operation root dest (.ok rc) ts tmp fs0).log).count
      (msWarnMsg root) = 1 := by
  obtain ⟨hfd, hfl⟩ := freshFor_iff.mp hf
  have htd : isPre tmp dest = false := by
    cases hc : isPre tmp dest
    · rfl
    · have hx := isPre_extend [zipFileName ts] hc
      rw [hzp] at hx
      cases hx
  have hms2 := backup_msExists_false hms h2 hrd
  have harch : lookupFile (dest ++ [zipFileName ts])
      ((execute_backup_operation root dest (.ok rc) ts tmp fs0).fs.files) =
      some (.zip
        (restrictFiles tmp (((backup_fs4 root dest tmp fs0).setFile
          (tmp ++ ["Windhawk.reg"]) (.bytes rc)).files))
        (restrictDirs tmp (((backup_fs4 root dest tmp fs0).setFile
          (tmp ++ ["Windhawk.reg"]) (.bytes rc)).dirs))) := by
    unfold execute_backup_operation
    dsimp only
    rw [lookup_removeTree_out hzp, FS.makeArchive, lookup_setFile_self]
    rfl
  refine ⟨rfl, ?_, ?_, ?_⟩
  · rw [isZipAt, harch]
  · rw [archiveMentions, harch]
    rw [Bool.or_eq_false_iff]
    constructor
    · rw [List.any_eq_false]
      intro x hx
      rw [mem_restrictFiles] at hx
      obtain ⟨e, he, hpre, rfl⟩ := hx
      rw [files_setFile] at he
      rcases List.mem_cons.mp he with heq | he
      · rw [heq]
        dsimp only
        rw [append_drop_cancel]
        simp [isPre]
      · have hmem := (List.mem_filter.mp he).1
        simp [backup_staged_file_not_ms hms2 hfl hmem hpre]
    · rw [List.any_eq_false]
      intro d hd
      rw [mem_restrictDirs] at hd
      obtain ⟨hdne, hdmem⟩ := hd
      rw [dirs_setFile] at hdmem
      have hne : tmp ++ d ≠ tmp := by
        intro hc
        exact hdne (by simpa using congrArg (List.drop tmp.length) hc)
      have hnot := backup_staged_dir_not_ms hms2 hfd htd hdmem
        (isPre_append tmp d) hne
      rw [append_drop_cancel] at hnot
      simp [hnot]
  · unfold execute_backup_operation
    dsimp only
    rw [hms2]
    simp only [Bool.false_eq_true, if_false]
    rw [List.count_append, List.count_append]
    have hA : List.count (msWarnMsg root) [msWarnMsg root] = 1 :=
      List.count_singleton_self _
    have hB : List.count (msWarnMsg root)
        (if backup_emExists root dest tmp fs0 = true then [emStagedMsg]
         else [emWarnMsg root]) = 0 := by
      split
      · rw [List.count_eq_zero]
        simp only [List.mem_singleton]
        exact msWarn_ne_emStaged root
      · rw [List.count_eq_zero]
        simp only [List.mem_singleton]
        exact msWarn_ne_emWarn root root
    have hC : List.count (msWarnMsg root)
        [regExportOkMsg, backupCompleteMsg dest ts] = 0 := by
      rw [List.count_eq_zero]
      intro hmem
      rcases List.mem_cons.mp hmem with h | h
      · exact msWarn_ne_regOk root h
      · exact msWarn_ne_complete root dest ts (by simpa using h)
    rw [hA, hB, hC]

/-- C8: a successful backup writes a zip archive at
`destinationFolder/windhawk-backup_<timestamp>.zip` (the timestamp argument
models `datetime.now().strftime('%Y%m%d_%H%M%S')` at creation time), and
the archive root mirrors the staging-area root: the staged `ModsSource/`
and `Engine/Mods/` directories and the `Windhawk.reg` export appear at the
archive's top level. -/
theorem c8_backup_archive_layout (root dest : Path) (rc ts : String)
    (tmp : Path) (fs0 : FS)
    (hmsdir : containsPath fs0.dirs (root ++ ["ModsSource"]) = true)
    (hemdir : containsPath fs0.dirs (root ++ ["Engine", "Mods"]) = true)
    (hzp : isPre tmp (dest ++ [zipFileName ts]) = false) :
    (execute_backup_operation root dest (.ok rc) ts tmp fs0).success = true ∧
    zipLayoutOk (execute_backup_operation root dest (.ok rc) ts tmp fs0).fs
      (dest ++ [zipFileName ts]) rc = true := by
  have harch : lookupFile (dest ++ [zipFileName ts])
      ((execute_backup_operation root dest (.ok rc) ts tmp fs0).fs.files) =
      some (.zip
        (restrictFiles tmp (((backup_fs4 root dest tmp fs0).setFile
          (tmp ++ ["Windhawk.reg"]) (.bytes rc)).files))
        (restrictDirs tmp (((backup_fs4 root dest tmp fs0).setFile
          (tmp ++ ["Windhawk.reg"]) (.bytes rc)).dirs))) := by
    unfold execute_backup_operation
    dsimp only
    rw [lookup_removeTree_out hzp, FS.makeArchive, lookup_setFile_self]
    rfl
  have hmsEx : backup_msExists root dest tmp fs0 = true := by
    rw [backup_msExists, existsPath_iff]
    left
    rw [backup_fs2, mem_dirs_addDir]
    left
    rw [backup_fs1]
    split
    · exact containsPath_iff.mp hmsdir
    · rw [mem_dirs_makedirs]
      left
      exact containsPath_iff.mp hmsdir
  have hms3 : tmp ++ ["ModsSource"] ∈ (backup_fs3 root dest tmp fs0).dirs := by
    rw [backup_fs3, if_pos hmsEx, mem_dirs_copytreeInto]
    right; left
    exact ⟨by simp, isPre_refl _⟩
  have hemEx : backup_emExists root dest tmp fs0 = true := by
    rw [backup_emExists, existsPath_iff]
    left
    have hbase : root ++ ["Engine", "Mods"] ∈ (backup_fs2 dest tmp fs0).dirs := by
      rw [backup_fs2, mem_dirs_addDir]
      left
      rw [backup_fs1]
      split
      · exact containsPath_iff.mp hemdir
      · rw [mem_dirs_makedirs]
        left
        exact containsPath_iff.mp hemdir
    rw [backup_fs3, if_pos hmsEx, mem_dirs_copytreeInto]
    left
    exact hbase
  have hms4 : tmp ++ ["ModsSource"] ∈ (backup_fs4 root dest tmp fs0).dirs := by
    rw [backup_fs4, if_pos hemEx, mem_dirs_copytreeInto]
    left
    exact hms3
  have hem4 : tmp ++ ["Engine", "Mods"] ∈ (backup_fs4 root dest tmp fs0).dirs := by
    rw [backup_fs4, if_pos hemEx, mem_dirs_copytreeInto]
    right; left
    exact ⟨by simp, isPre_refl _⟩
  refine ⟨rfl, ?_⟩
  rw [zipLayoutOk, harch]
  dsimp only
  have hD1 : containsPath (restrictDirs tmp (((backup_fs4 root dest tmp fs0).setFile
      (tmp ++ ["Windhawk.reg"]) (.bytes rc)).dirs)) ["ModsSource"] = true := by
    rw [containsPath_iff, mem_restrictDirs, dirs_setFile]
    exact ⟨by simp, hms4⟩
  have hD2 : containsPath (restrictDirs tmp (((backup_fs4 root dest tmp fs0).setFile
      (tmp ++ ["Windhawk.reg"]) (.bytes rc)).dirs)) ["Engine", "Mods"] = true := by
    rw [containsPath_iff, mem_restrictDirs, dirs_setFile]
    exact ⟨by simp, hem4⟩
  have hFreg : lookupFile ["Windhawk.reg"]
      (restrictFiles tmp (((backup_fs4 root dest tmp fs0).setFile
        (tmp ++ ["Windhawk.reg"]) (.bytes rc)).files)) = some (.bytes rc) := by
    rw [files_setFile, restrictFiles_cons, if_pos (isPre_append tmp _)]
    dsimp only
    rw [append_drop_cancel]
    simp
  rw [hD1, hD2, hFreg]
  simp

/-- A subtree copy does not affect lookups outside its destination. -/
theorem lookup_copytree_out {fs : FS} {src dst k : Path}
    (h : isPre dst k = false) :
    lookupFile k ((fs.copytreeInto src dst).files) = lookupFile k fs.files := by
  have hkey : ∀ e ∈ fs.files.filterMap (fun e =>
      if isPre src e.1 then some (movePath src dst e.1, e.2) else none),
      e.1 ≠ k := by
    intro e he hc
    have hx := mem_moved_isPre he
    rw [hc, h] at hx
    cases hx
  rw [files_copytreeInto,
    lookupFile_append_of_none _ (lookupFile_eq_none_of_all hkey)]
  apply lookupFile_filter
  intro e _ hep
  rw [List.all_eq_true]
  intro c hcm
  simp only [Bool.not_eq_true', decide_eq_false_iff_not]
  intro hcc
  exact hkey c hcm (by rw [hcc, hep])

/-- A path below an extension of `root` is never below a path disjoint from
`root`. -/
theorem isPre_tmp_rootext {tmp root : Path} (h1 : isPre tmp root = false)
    (h2 : isPre root tmp = false) (x : Path) : isPre tmp (root ++ x) = false := by
  cases hc : isPre tmp (root ++ x)
  · rfl
  · rcases isPre_comparable hc (isPre_append root x) with h | h
    · rw [h] at h1
      cases h1
    · rw [h] at h2
      cases h2

/-- The restored value of an archive entry below `ModsSource`, after the
`ModsSource` copy of restore. -/
theorem restore_fs3_ms_lookup {root tmp : Path} {F : List (Path × Content)}
    {D : List Path} {fs0 : FS} {rrel : Path} {cr : Content}
    (hfl : ∀ e ∈ fs0.files, isPre tmp e.1 = false)
    (hDms : containsPath D ["ModsSource"] = true)
    (hFr : lookupFile ("ModsSource" :: rrel) F = some cr) :
    lookupFile (root ++ "ModsSource" :: rrel)
      ((restore_fs3 root tmp F D fs0).files) = some cr := by
  have hfl1 : ∀ e ∈ (fs0.addDir tmp).files, isPre tmp e.1 = false := by
    rw [files_addDir]
    exact hfl
  have hmsEx : restore_msExists tmp F D fs0 = true := by
    rw [restore_msExists, existsPath_iff]
    left
    rw [restore_fs2, mem_dirs_unpackInto]
    right
    exact ⟨["ModsSource"], containsPath_iff.mp hDms, rfl⟩
  rw [restore_fs3, if_pos hmsEx, files_copytreeInto]
  apply lookupFile_append_of_some
  have hsplit : root ++ "ModsSource" :: rrel = (root ++ ["ModsSource"]) ++ rrel := by
    simp
  rw [hsplit, lookupFile_moved, List.append_assoc, restore_fs2,
    lookup_tmp_unpack hfl1]
  exact hFr

/-- C9: when restore's decompression succeeds but the registry import then
fails, restore returns success=false and logs the import error, while the
ModsSource and Engine/Mods copies already performed into the installation
root are not rolled back: the copied archive entries are still present in
the returned filesystem. -/
theorem c9_restore_import_failure_keeps_copies (root arch : Path) (tmp : Path)
    (fs0 : FS) (F : List (Path × Content)) (D : List Path)
    (rI : Content → Except String Unit) (creg : Content) (estr : String)
    (rrel srel : Path) (cr cs : Content)
    (hf : fs0.freshFor tmp = true)
    (h1 : isPre tmp root = false) (h2 : isPre root tmp = false)
    (hl : lookupFile arch fs0.files = some (.zip F D))
    (hDms : containsPath D ["ModsSource"] = true)
    (hFr : lookupFile ("ModsSource" :: rrel) F = some cr)
    (hFs : lookupFile ("Engine" :: "Mods" :: srel) F = some cs)
    (hFreg : lookupFile ["Windhawk.reg"] F = some creg)
    (hDem : containsPath D ["Engine", "Mods"] = true)
    (hri : rI creg = .error estr) :
    (execute_restore_operation root arch rI tmp fs0).success = false ∧
    regImportErrMsg estr ∈ (execute_restore_operation root arch rI tmp fs0).log ∧
    lookupFile (root ++ "ModsSource" :: rrel)
      ((execute_restore_operation root arch rI tmp fs0).fs.files) = some cr ∧
    lookupFile (root ++ "Engine" :: "Mods" :: srel)
      ((execute_restore_operation root arch rI tmp fs0).fs.files) = some cs := by
  have hfl : ∀ e ∈ fs0.files, isPre tmp e.1 = false := (freshFor_iff.mp hf).2
  have hemEx : restore_emExists root tmp F D fs0 = true := by
    rw [restore_emExists, existsPath_iff]
    left
    have hbase : tmp ++ ["Engine", "Mods"] ∈ (restore_fs2 tmp F D fs0).dirs := by
      rw [restore_fs2, mem_dirs_unpackInto]
      right
      exact ⟨["Engine", "Mods"], containsPath_iff.mp hDem, rfl⟩
    rw [restore_fs3]
    split
    · rw [mem_dirs_copytreeInto]
      left
      exact hbase
    · exact hbase
  have hEMout : isPre (root ++ ["Engine", "Mods"])
      (root ++ "ModsSource" :: rrel) = false := by
    have hsp : root ++ "ModsSource" :: rrel = root ++ (["ModsSource"] ++ rrel) := by
      simp
    rw [hsp, isPre_cancel]
    simp [isPre]
  have hms4 : lookupFile (root ++ "ModsSource" :: rrel)
      ((restore_fs4 root tmp F D fs0).files) = some cr := by
    rw [restore_fs4, if_pos hemEx, lookup_copytree_out hEMout]
    exact restore_fs3_ms_lookup hfl hDms hFr
  have hem4 : lookupFile (root ++ "Engine" :: "Mods" :: srel)
      ((restore_fs4 root tmp F D fs0).files) = some cs := by
    rw [restore_fs4, if_pos hemEx, files_copytreeInto]
    apply lookupFile_append_of_some
    have hsp : root ++ "Engine" :: "Mods" :: srel =
        (root ++ ["Engine", "Mods"]) ++ srel := by
      simp
    rw [hsp, lookupFile_moved, List.append_assoc,
      lookup_tmp_restore_fs3 _ hfl h1 h2]
    exact hFs
  unfold execute_restore_operation
  dsimp only
  rw [files_addDir, hl]
  dsimp only
  rw [lookup_tmp_restore_fs4 ["Windhawk.reg"] hfl h1 h2, hFreg]
  dsimp only
  rw [hri]
  refine ⟨rfl, List.mem_append_right _ (by simp), ?_, ?_⟩
  · rw [lookup_removeTree_out (isPre_tmp_rootext h1 h2 _), hms4]
  · rw [lookup_removeTree_out (isPre_tmp_rootext h1 h2 _), hem4]

theorem all_ne_of_lookup_none {p : Path} {l : List (Path × Content)}
    (h : lookupFile p l = none) : ∀ e ∈ l, e.1 ≠ p := by
  induction l with
  | nil => intro e he; cases he
  | cons a as ih =>
      by_cases ha : a.1 = p
      · rw [lookupFile_cons, if_pos ha] at h
        cases h
      · rw [lookupFile_cons, if_neg ha] at h
        intro e he
        rcases List.mem_cons.mp he with rfl | he
        · exact ha
        · exact ih h e he

/-- An extraction below the staging path does not affect lookups outside
it. -/
theorem lookup_unpack_out {fs1 : FS} {F : List (Path × Content)}
    {D : List Path} {tmp q : Path} (hq : isPre tmp q = false) :
    lookupFile q ((fs1.unpackInto F D tmp).files) = lookupFile q fs1.files := by
  have hkey : ∀ e ∈ F.map (fun e => (tmp ++ e.1, e.2)), e.1 ≠ q := by
    intro e he hc
    have := mem_mapped_isPre he
    rw [hc, hq] at this
    cases this
  rw [files_unpackInto,
    lookupFile_append_of_none _ (lookupFile_eq_none_of_all hkey)]
  apply lookupFile_filter
  intro e _ hep
  rw [List.all_eq_true]
  intro a _
  simp only [Bool.not_eq_true', decide_eq_false_iff_not]
  intro hc
  rw [← hep] at hq
  rw [← hc] at hq
  simp [isPre_append] at hq

/-- A subtree copy does not change the destination entry whose source-side
counterpart does not exist (the untouched half of overwrite-merge). -/
theorem lookup_copytree_nosrc {fs : FS} {src dst rel : Path}
    (hno : ∀ e ∈ fs.files, e.1 ≠ src ++ rel) :
    lookupFile (dst ++ rel) ((fs.copytreeInto src dst).files) =
      lookupFile (dst ++ rel) fs.files := by
  have hkey : ∀ c ∈ fs.files.filterMap (fun e =>
      if isPre src e.1 then some (movePath src dst e.1, e.2) else none),
      c.1 ≠ dst ++ rel := by
    intro c hc hcq
    obtain ⟨e, he, heq⟩ := List.mem_filterMap.mp hc
    by_cases hp : isPre src e.1
    · rw [if_pos hp] at heq
      injection heq with heq'
      rw [← heq'] at hcq
      dsimp only [movePath] at hcq
      have hrel : e.1.drop src.length = rel := List.append_cancel_left hcq
      apply hno e he
      rw [eq_append_drop_of_isPre hp, hrel]
    · rw [if_neg hp] at heq
      cases heq
  rw [files_copytreeInto,
    lookupFile_append_of_none _ (lookupFile_eq_none_of_all hkey)]
  apply lookupFile_filter
  intro e _ hep
  rw [List.all_eq_true]
  intro c hcm
  simp only [Bool.not_eq_true', decide_eq_false_iff_not]
  intro hcc
  exact hkey c hcm (by rw [hcc, hep])

/-- After extraction, no file below the staging path has a relative key the
archive does not list. -/
theorem restore_fs2_no_key {tmp : Path} {F : List (Path × Content)}
    {D : List Path} {fs0 : FS}
    (hfl : ∀ e ∈ fs0.files, isPre tmp e.1 = false) {a : Path}
    (hna : ∀ f ∈ F, f.1 ≠ a) :
    ∀ e ∈ (restore_fs2 tmp F D fs0).files, e.1 ≠ tmp ++ a := by
  intro e he hc
  rw [restore_fs2, files_unpackInto] at he
  rcases List.mem_append.mp he with he | he
  · obtain ⟨f, hfm, heq⟩ := List.mem_map.mp he
    rw [← heq] at hc
    exact hna f hfm (List.append_cancel_left hc)
  · have hmem := (List.mem_filter.mp he).1
    rw [files_addDir] at hmem
    have := hfl e hmem
    rw [hc] at this
    simp [isPre_append] at this

/-- The staged `ModsSource` copy keeps the no-such-staged-file property. -/
theorem restore_fs3_no_key {root tmp : Path} {F : List (Path × Content)}
    {D : List Path} {fs0 : FS}
    (hfl : ∀ e ∈ fs0.files, isPre tmp e.1 = false)
    (h1 : isPre tmp root = false) (h2 : isPre root tmp = false) {a : Path}
    (hna : ∀ f ∈ F, f.1 ≠ a) :
    ∀ e ∈ (restore_fs3 root tmp F D fs0).files, e.1 ≠ tmp ++ a := by
  intro e he hc
  rw [restore_fs3] at he
  have hbase := @restore_fs2_no_key tmp F D fs0 hfl a hna
  cases hif : restore_msExists tmp F D fs0
  · rw [hif] at he
    simp only [Bool.false_eq_true, if_false] at he
    exact hbase e he hc
  · rw [hif] at he
    rw [if_pos rfl] at he
    rw [files_copytreeInto] at he
    rcases List.mem_append.mp he with he | he
    · have hx := mem_moved_isPre he
      rw [hc] at hx
      rcases isPre_comparable hx (isPre_append tmp a) with hcmp | hcmp
      · have hy := isPre_trans (isPre_append root ["ModsSource"]) hcmp
        rw [h2] at hy
        cases hy
      · have hz := isPre_tmp_rootext h1 h2 ["ModsSource"]
        rw [hz] at hcmp
        cases hcmp
    · exact hbase e (List.mem_filter.mp he).1 hc

theorem restore_emExists_true {root tmp : Path} {F : List (Path × Content)}
    {D : List Path} {fs0 : FS}
    (hDem : containsPath D ["Engine", "Mods"] = true) :
    restore_emExists root tmp F D fs0 = true := by
  rw [restore_emExists, existsPath_iff]
  left
  have hbase : tmp ++ ["Engine", "Mods"] ∈ (restore_fs2 tmp F D fs0).dirs := by
    rw [restore_fs2, mem_dirs_unpackInto]
    right
    exact ⟨["Engine", "Mods"], containsPath_iff.mp hDem, rfl⟩
  rw [restore_fs3]
  split
  · rw [mem_dirs_copytreeInto]
    left
    exact hbase
  · exact hbase

/-- C6: restoring into an installation root that already holds files under
`ModsSource` or `Engine/Mods` follows overwrite-merge semantics: every
archive file entry below `ModsSource` or `Engine/Mods` ends up at its
destination path, overwriting any pre-existing file there, while every
destination file whose relative path has no counterpart in the archive
keeps exactly its previous content — nothing is deleted. -/
theorem c6_restore_overwrite_merge (root arch tmp : Path) (fs0 : FS)
    (F : List (Path × Content)) (D : List Path)
    (rI : Content → Except String Unit)
    (rrel srel qmr qer : Path) (cr cs : Content)
    (hf : fs0.freshFor tmp = true)
    (h1 : isPre tmp root = false) (h2 : isPre root tmp = false)
    (hl : lookupFile arch fs0.files = some (.zip F D))
    (hDms : containsPath D ["ModsSource"] = true)
    (hDem : containsPath D ["Engine", "Mods"] = true)
    (hFr : lookupFile ("ModsSource" :: rrel) F = some cr)
    (hFs : lookupFile ("Engine" :: "Mods" :: srel) F = some cs)
    (hqm : lookupFile ("ModsSource" :: qmr) F = none)
    (hqe : lookupFile ("Engine" :: "Mods" :: qer) F = none) :
    lookupFile (root ++ "ModsSource" :: rrel)
      ((execute_restore_operation root arch rI tmp fs0).fs.files) = some cr ∧
    lookupFile (root ++ "Engine" :: "Mods" :: srel)
      ((execute_restore_operation root arch rI tmp fs0).fs.files) = some cs ∧
    lookupFile (root ++ "ModsSource" :: qmr)
      ((execute_restore_operation root arch rI tmp fs0).fs.files) =
      lookupFile (root ++ "ModsSource" :: qmr) fs0.files ∧
    lookupFile (root ++ "Engine" :: "Mods" :: qer)
      ((execute_restore_operation root arch rI tmp fs0).fs.files) =
      lookupFile (root ++ "Engine" :: "Mods" :: qer) fs0.files := by
  have hfl : ∀ e ∈ fs0.files, isPre tmp e.1 = false := (freshFor_iff.mp hf).2
  have hemEx := @restore_emExists_true root tmp F D fs0 hDem
  have hfs : (execute_restore_operation root arch rI tmp fs0).fs =
      (restore_fs4 root tmp F D fs0).removeTree tmp := by
    unfold execute_restore_operation
    dsimp only
    rw [files_addDir, hl]
    dsimp only
    split
    · split <;> rfl
    · rfl
  have hEMoutMS : ∀ x : Path,
      isPre (root ++ ["Engine", "Mods"]) (root ++ "ModsSource" :: x) = false := by
    intro x
    have hsp : root ++ "ModsSource" :: x = root ++ (["ModsSource"] ++ x) := by simp
    rw [hsp, isPre_cancel]
    simp [isPre]
  have hMSoutEM : ∀ x : Path,
      isPre (root ++ ["ModsSource"]) (root ++ "Engine" :: "Mods" :: x) = false := by
    intro x
    have hsp : root ++ "Engine" :: "Mods" :: x =
        root ++ (["Engine", "Mods"] ++ x) := by simp
    rw [hsp, isPre_cancel]
    simp [isPre]
  refine ⟨?_, ?_, ?_, ?_⟩
  · rw [hfs, lookup_removeTree_out (isPre_tmp_rootext h1 h2 _),
      restore_fs4, if_pos hemEx, lookup_copytree_out (hEMoutMS rrel)]
    exact restore_fs3_ms_lookup hfl hDms hFr
  · rw [hfs, lookup_removeTree_out (isPre_tmp_rootext h1 h2 _),
      restore_fs4, if_pos hemEx, files_copytreeInto]
    apply lookupFile_append_of_some
    have hsp : root ++ "Engine" :: "Mods" :: srel =
        (root ++ ["Engine", "Mods"]) ++ srel := by
      simp
    rw [hsp, lookupFile_moved, List.append_assoc,
      lookup_tmp_restore_fs3 _ hfl h1 h2]
    exact hFs
  · rw [hfs, lookup_removeTree_out (isPre_tmp_rootext h1 h2 _),
      restore_fs4, if_pos hemEx, lookup_copytree_out (hEMoutMS qmr),
      restore_fs3]
    have hna : ∀ f ∈ F, f.1 ≠ "ModsSource" :: qmr := all_ne_of_lookup_none hqm
    have hq' : root ++ "ModsSource" :: qmr = (root ++ ["ModsSource"]) ++ qmr := by
      simp
    have hno : ∀ e ∈ (restore_fs2 tmp F D fs0).files,
        e.1 ≠ (tmp ++ ["ModsSource"]) ++ qmr := by
      intro e he hc
      apply @restore_fs2_no_key tmp F D fs0 hfl ("ModsSource" :: qmr) hna e he
      rw [hc]
      simp
    split
    · rw [hq', lookup_copytree_nosrc hno, ← hq', restore_fs2,
        lookup_unpack_out (isPre_tmp_rootext h1 h2 _), files_addDir]
    · rw [restore_fs2, lookup_unpack_out (isPre_tmp_rootext h1 h2 _),
        files_addDir]
  · rw [hfs, lookup_removeTree_out (isPre_tmp_rootext h1 h2 _),
      restore_fs4, if_pos hemEx]
    have hna : ∀ f ∈ F, f.1 ≠ "Engine" :: "Mods" :: qer :=
      all_ne_of_lookup_none hqe
    have hq' : root ++ "Engine" :: "Mods" :: qer =
        (root ++ ["Engine", "Mods"]) ++ qer := by
      simp
    have hno : ∀ e ∈ (restore_fs3 root tmp F D fs0).files,
        e.1 ≠ (tmp ++ ["Engine", "Mods"]) ++ qer := by
      intro e he hc
      apply restore_fs3_no_key hfl h1 h2 hna e he
      rw [hc]
      simp
    rw [hq', lookup_copytree_nosrc hno, ← hq', restore_fs3]
    split
    · rw [lookup_copytree_out (hMSoutEM qer), restore_fs2,
        lookup_unpack_out (isPre_tmp_rootext h1 h2 _), files_addDir]
    · rw [restore_fs2, lookup_unpack_out (isPre_tmp_rootext h1 h2 _),
        files_addDir]

/-! ### The backup operation only reads the installation root -/

theorem restrictDirs_cons (p d : Path) (l : List Path) :
    restrictDirs p (d :: l) =
      if isPre p d && !(decide (d = p)) then
        (d.drop p.length) :: restrictDirs p l
      else restrictDirs p l := by
  rw [restrictDirs, List.filterMap_cons]
  by_cases hb : (isPre p d && !(decide (d = p))) = true <;>
    simp [hb, restrictDirs]

theorem restrictDirs_eq_nil {p : Path} {l : List Path}
    (h : ∀ d ∈ l, isPre p d = false) : restrictDirs p l = [] := by
  induction l with
  | nil => rfl
  | cons d ds ih =>
      rw [restrictDirs_cons, if_neg (by simp [h d (List.mem_cons_self d ds)])]
      exact ih (fun x hx => h x (List.mem_cons_of_mem d hx))

theorem restrictDirs_filter {p : Path} {l : List Path} {f : Path → Bool}
    (h : ∀ d ∈ l, isPre p d = true → f d = true) :
    restrictDirs p (l.filter f) = restrictDirs p l := by
  induction l with
  | nil => rfl
  | cons d ds ih =>
      have ih' := ih (fun x hx => h x (List.mem_cons_of_mem d hx))
      rw [List.filter_cons]
      by_cases hp : isPre p d
      · rw [if_pos (h d (List.mem_cons_self d ds) hp)]
        rw [restrictDirs_cons, restrictDirs_cons, ih']
      · cases hf : f d
        · rw [if_neg (by simp [hf])]
          rw [restrictDirs_cons, if_neg (by simp [hp]), ih']
        · rw [if_pos rfl, restrictDirs_cons, restrictDirs_cons,
            if_neg (by simp [hp]), if_neg (by simp [hp]), ih']

theorem dirs_addDir_sub (fs : FS) (p : Path) :
    ∃ extra : List Path, (fs.addDir p).dirs = fs.dirs ++ extra ∧
      ∀ d ∈ extra, d = p := by
  unfold FS.addDir
  split
  · exact ⟨[], by simp, by simp⟩
  · exact ⟨[p], rfl, by simp⟩

theorem dirs_addDirs_sub (fs : FS) (l : List Path) :
    ∃ extra : List Path, (fs.addDirs l).dirs = fs.dirs ++ extra ∧
      ∀ d ∈ extra, d ∈ l := by
  induction l generalizing fs with
  | nil => exact ⟨[], by simp [FS.addDirs], by simp⟩
  | cons p ps ih =>
      obtain ⟨e1, he1, hp1⟩ := dirs_addDir_sub fs p
      obtain ⟨e2, he2, hp2⟩ := ih (fs.addDir p)
      refine ⟨e1 ++ e2, ?_, ?_⟩
      · show ((fs.addDir p).addDirs ps).dirs = _
        rw [he2, he1, List.append_assoc]
      · intro d hd
        rcases List.mem_append.mp hd with hd | hd
        · rw [hp1 d hd]
          exact List.mem_cons_self p ps
        · exact List.mem_cons_of_mem p (hp2 d hd)

theorem mem_movedDirs_isPre {l : List Path} {src dst d : Path}
    (hd : d ∈ l.filterMap
      (fun q => if isPre src q then some (movePath src dst q) else none)) :
    isPre dst d = true := by
  obtain ⟨q, _, hq⟩ := List.mem_filterMap.mp hd
  by_cases hp : isPre src q
  · rw [if_pos hp] at hq
    injection hq with hq'
    rw [← hq']
    exact isPre_append _ _
  · rw [if_neg hp] at hq
    cases hq

@[simp] theorem dirs_copytreeInto_eq (fs : FS) (src dst : Path) :
    (fs.copytreeInto src dst).dirs =
      ((fs.makedirs dst).addDirs (fs.dirs.filterMap
        (fun q => if isPre src q then some (movePath src dst q) else none))).dirs :=
  rfl

theorem dirs_copytree_sub (fs : FS) (src dst : Path) :
    ∃ extra : List Path, (fs.copytreeInto src dst).dirs = fs.dirs ++ extra ∧
      ∀ d ∈ extra, (d ≠ [] ∧ isPre d dst = true) ∨ isPre dst d = true := by
  obtain ⟨e1, he1, hp1⟩ := dirs_addDirs_sub fs (prefixesOf dst)
  obtain ⟨e2, he2, hp2⟩ := dirs_addDirs_sub (fs.makedirs dst)
    (fs.dirs.filterMap
      (fun q => if isPre src q then some (movePath src dst q) else none))
  refine ⟨e1 ++ e2, ?_, ?_⟩
  · rw [dirs_copytreeInto_eq, he2]
    have hmk : (fs.makedirs dst).dirs = fs.dirs ++ e1 := he1
    rw [hmk, List.append_assoc]
  · intro d hd
    rcases List.mem_append.mp hd with hd | hd
    · have := mem_prefixesOf.mp (hp1 d hd)
      exact Or.inl ⟨this.1, this.2⟩
    · exact Or.inr (mem_movedDirs_isPre (hp2 d hd))

/-- Whatever lies at or below a path disjoint from `root` is not below
`root`. -/
theorem root_out_of_tmp {root tmp : Path} (ht1 : isPre root tmp = false)
    (ht2 : isPre tmp root = false) {y : Path} (hy : isPre tmp y = true) :
    isPre root y = false := by
  cases hc : isPre root y
  · rfl
  · rcases isPre_comparable hc hy with h | h
    · rw [h] at ht1
      cases ht1
    · rw [h] at ht2
      cases ht2

/-- All directories backup creates lie outside the installation root. -/
theorem backup_fs4_dirs_root (root dest tmp : Path) (fs0 : FS)
    (hrd : isPre root dest = false)
    (ht1 : isPre root tmp = false) (ht2 : isPre tmp root = false) :
    ∃ extra : List Path, (backup_fs4 root dest tmp fs0).dirs = fs0.dirs ++ extra ∧
      ∀ d ∈ extra, isPre root d = false := by
  have hseg : ∀ (d x : Path), d ≠ [] → isPre d (tmp ++ x) = true →
      isPre root d = false := by
    intro d x _ hdp
    cases hc : isPre root d
    · rfl
    · have hr : isPre root (tmp ++ x) = true := isPre_trans hc hdp
      rw [isPre_tmp_rootext ht1 ht2 x] at hr
      cases hr
  have hdest : ∀ d : Path, isPre d dest = true → isPre root d = false := by
    intro d hdp
    cases hc : isPre root d
    · rfl
    · have hr : isPre root dest = true := isPre_trans hc hdp
      rw [hrd] at hr
      cases hr
  obtain ⟨e1, he1, hp1⟩ : ∃ e : List Path,
      (backup_fs1 dest fs0).dirs = fs0.dirs ++ e ∧
        ∀ d ∈ e, isPre root d = false := by
    rw [backup_fs1]
    split
    · exact ⟨[], by simp, by simp⟩
    · obtain ⟨e, he, hp⟩ := dirs_addDirs_sub fs0 (prefixesOf dest)
      refine ⟨e, he, fun d hd => ?_⟩
      exact hdest d (mem_prefixesOf.mp (hp d hd)).2
  obtain ⟨e2, he2, hp2⟩ := dirs_addDir_sub (backup_fs1 dest fs0) tmp
  have he2' : ∀ d ∈ e2, isPre root d = false := by
    intro d hd
    rw [hp2 d hd]
    exact ht1
  obtain ⟨e3, he3, hp3⟩ : ∃ e : List Path,
      (backup_fs3 root dest tmp fs0).dirs = (backup_fs2 dest tmp fs0).dirs ++ e ∧
        ∀ d ∈ e, isPre root d = false := by
    rw [backup_fs3]
    split
    · obtain ⟨e, he, hp⟩ := dirs_copytree_sub (backup_fs2 dest tmp fs0)
        (root ++ ["ModsSource"]) (tmp ++ ["ModsSource"])
      refine ⟨e, he, fun d hd => ?_⟩
      rcases hp d hd with ⟨hne, hpre⟩ | hpre
      · exact hseg d ["ModsSource"] hne hpre
      · exact root_out_of_tmp ht1 ht2
          (isPre_trans (isPre_append tmp ["ModsSource"]) hpre)
    · exact ⟨[], by simp, by simp⟩
  obtain ⟨e4, he4, hp4⟩ : ∃ e : List Path,
      (backup_fs4 root dest tmp fs0).dirs =
        (backup_fs3 root dest tmp fs0).dirs ++ e ∧
        ∀ d ∈ e, isPre root d = false := by
    rw [backup_fs4]
    split
    · obtain ⟨e, he, hp⟩ := dirs_copytree_sub (backup_fs3 root dest tmp fs0)
        (root ++ ["Engine", "Mods"]) (tmp ++ ["Engine", "Mods"])
      refine ⟨e, he, fun d hd => ?_⟩
      rcases hp d hd with ⟨hne, hpre⟩ | hpre
      · exact hseg d ["Engine", "Mods"] hne hpre
      · exact root_out_of_tmp ht1 ht2
          (isPre_trans (isPre_append tmp ["Engine", "Mods"]) hpre)
    · exact ⟨[], by simp, by simp⟩
  refine ⟨e1 ++ e2 ++ e3 ++ e4, ?_, ?_⟩
  · rw [he4, he3]
    have hfs2 : (backup_fs2 dest tmp fs0).dirs = fs0.dirs ++ e1 ++ e2 := by
      rw [backup_fs2, he2, he1]
    rw [hfs2]
    simp [List.append_assoc]
  · intro d hd
    rcases List.mem_append.mp hd with hd | hd
    · rcases List.mem_append.mp hd with hd | hd
      · rcases List.mem_append.mp hd with hd | hd
        · exact hp1 d hd
        · exact he2' d hd
      · exact hp3 d hd
    · exact hp4 d hd

/-- The staging copies of backup do not change the file tree below the
(disjoint) installation root. -/
theorem restrict_root_backup_fs4 (root dest tmp : Path) (fs0 : FS)
    (ht1 : isPre root tmp = false) (ht2 : isPre tmp root = false) :
    restrictFiles root ((backup_fs4 root dest tmp fs0).files) =
      restrictFiles root fs0.files := by
  have hcop : ∀ (fs : FS) (src x : Path),
      restrictFiles root ((fs.copytreeInto src (tmp ++ x)).files) =
        restrictFiles root fs.files := by
    intro fs src x
    rw [files_copytreeInto, restrictFiles_append]
    have hnil : restrictFiles root (fs.files.filterMap (fun e =>
        if isPre src e.1 then some (movePath src (tmp ++ x) e.1, e.2) else none)) =
        [] := by
      apply restrictFiles_eq_nil
      intro e he
      exact root_out_of_tmp ht1 ht2
        (isPre_trans (isPre_append tmp x) (mem_moved_isPre he))
    rw [hnil, List.nil_append]
    apply restrictFiles_filter
    intro e _ hroot
    rw [List.all_eq_true]
    intro c hcm
    simp only [Bool.not_eq_true', decide_eq_false_iff_not]
    intro hcc
    have hcp := isPre_trans (isPre_append tmp x) (mem_moved_isPre hcm)
    rw [hcc] at hcp
    rw [root_out_of_tmp ht1 ht2 hcp] at hroot
    cases hroot
  rw [backup_fs4]
  split
  · rw [hcop, backup_fs3]
    split
    · rw [hcop, backup_fs2_files]
    · rw [backup_fs2_files]
  · rw [backup_fs3]
    split
    · rw [hcop, backup_fs2_files]
    · rw [backup_fs2_files]

/-- C10 (amended): provided the staging directory and the destination
folder (with its archive file) do not lie under the installation root nor
the installation root under them, backup only reads the installation root:
the files and directories below the installation root are identical before
and after the operation, whether the registry export succeeds or fails. -/
theorem c10_backup_leaves_root_unchanged (root dest : Path)
    (rE : Except String String) (ts : String) (tmp : Path) (fs0 : FS)
    (hzproot : isPre root (dest ++ [zipFileName ts]) = false)
    (ht1 : isPre root tmp = false) (ht2 : isPre tmp root = false) :
    restrictFiles root
      ((execute_backup_operation root dest rE ts tmp fs0).fs.files) =
      restrictFiles root fs0.files ∧
    restrictDirs root
      ((execute_backup_operation root dest rE ts tmp fs0).fs.dirs) =
      restrictDirs root fs0.dirs := by
  have hrd : isPre root dest = false := by
    cases hc : isPre root dest
    · rfl
    · have hx := isPre_extend [zipFileName ts] hc
      rw [hzproot] at hx
      cases hx
  have hfilter_tmp : ∀ l : List (Path × Content),
      restrictFiles root (l.filter (fun e => !(isPre tmp e.1))) =
        restrictFiles root l := by
    intro l
    apply restrictFiles_filter
    intro e _ hroot
    cases hc : isPre tmp e.1
    · simp
    · rw [root_out_of_tmp ht1 ht2 hc] at hroot
      cases hroot
  have hfilterD_tmp : ∀ l : List Path,
      restrictDirs root (l.filter (fun d => !(isPre tmp d))) =
        restrictDirs root l := by
    intro l
    apply restrictDirs_filter
    intro d _ hroot
    cases hc : isPre tmp d
    · simp
    · rw [root_out_of_tmp ht1 ht2 hc] at hroot
      cases hroot
  obtain ⟨E, hE, hEp⟩ := backup_fs4_dirs_root root dest tmp fs0 hrd ht1 ht2
  have hdirs : restrictDirs root ((backup_fs4 root dest tmp fs0).dirs) =
      restrictDirs root fs0.dirs := by
    rw [hE, restrictDirs_append, restrictDirs_eq_nil hEp, List.append_nil]
  have hreg : isPre root (tmp ++ ["Windhawk.reg"]) = false :=
    root_out_of_tmp ht1 ht2 (isPre_append _ _)
  have hfzp : ∀ l : List (Path × Content),
      restrictFiles root (l.filter
        (fun e => !(decide (e.1 = dest ++ [zipFileName ts])))) =
        restrictFiles root l := by
    intro l
    apply restrictFiles_filter
    intro e _ hroot
    simp only [Bool.not_eq_true', decide_eq_false_iff_not]
    intro hc
    rw [hc, hzproot] at hroot
    cases hroot
  have hfreg : ∀ l : List (Path × Content),
      restrictFiles root (l.filter
        (fun e => !(decide (e.1 = tmp ++ ["Windhawk.reg"])))) =
        restrictFiles root l := by
    intro l
    apply restrictFiles_filter
    intro e _ hroot
    simp only [Bool.not_eq_true', decide_eq_false_iff_not]
    intro hc
    rw [hc, hreg] at hroot
    cases hroot
  cases rE with
  | error stderr =>
      constructor
      · unfold execute_backup_operation
        dsimp only
        rw [files_removeTree, hfilter_tmp,
          restrict_root_backup_fs4 root dest tmp fs0 ht1 ht2]
      · unfold execute_backup_operation
        dsimp only
        rw [dirs_removeTree, hfilterD_tmp, hdirs]
  | ok rc =>
      constructor
      · unfold execute_backup_operation
        dsimp only
        rw [files_removeTree, hfilter_tmp, FS.makeArchive, files_setFile,
          restrictFiles_cons, if_neg (by simp [hzproot]), hfzp,
          files_setFile, restrictFiles_cons, if_neg (by simp [hreg]), hfreg]
        exact restrict_root_backup_fs4 root dest tmp fs0 ht1 ht2
      · unfold execute_backup_operation
        dsimp only
        rw [dirs_removeTree, dirs_makeArchive, dirs_setFile, hfilterD_tmp,
          hdirs]

/-- C10 counterexample: with the backup destination folder chosen inside
the installation root, backup does write below the installation root (the
destination directory and the archive file appear there), so the claim
that the installation root is identical before and after every backup
invocation is false as stated. -/
theorem c10_counterexample :
    ¬ (restrictFiles ["r"]
        ((execute_backup_operation ["r"] ["r", "b"] (.ok "REG") "T" ["t"]
          { dirs := [["r"], ["r", "ModsSource"], ["r", "Engine"],
              ["r", "Engine", "Mods"]],
            files := [(["r", "ModsSource", "a"], .bytes "A")] }).fs.files) =
        restrictFiles ["r"]
          [(["r", "ModsSource", "a"], (.bytes "A" : Content))] ∧
       restrictDirs ["r"]
        ((execute_backup_operation ["r"] ["r", "b"] (.ok "REG") "T" ["t"]
          { dirs := [["r"], ["r", "ModsSource"], ["r", "Engine"],
              ["r", "Engine", "Mods"]],
            files := [(["r", "ModsSource", "a"], .bytes "A")] }).fs.dirs) =
        restrictDirs ["r"] [["r"], ["r", "ModsSource"], ["r", "Engine"],
          ["r", "Engine", "Mods"]]) := by
  intro h
  exact absurd (congrArg List.length h.2) (by decide)

/-! ### Round-trip helpers -/

theorem isPre_antisymm : ∀ {a b : Path}, isPre a b = true → isPre b a = true →
    a = b
  | [], [], _, _ => rfl
  | [], _ :: _, _, h2 => by simp [isPre] at h2
  | _ :: _, [], h1, _ => by simp [isPre] at h1
  | a :: as, b :: bs, h1, h2 => by
      by_cases hab : a = b
      · subst hab
        simp only [isPre, if_pos rfl] at h1 h2
        rw [isPre_antisymm h1 h2]
      · simp [isPre, hab] at h1

theorem append_ne_left {a b : Path} (hb : b ≠ []) : a ++ b ≠ a := by
  intro hc
  apply hb
  have := congrArg (List.drop a.length) hc
  simpa using this

/-- Two sibling branches of the same base are disjoint when their leading
segments are. -/
theorem branch_out {base x y : Path} (hxy1 : isPre x y = false)
    (hxy2 : isPre y x = false) (k : Path) (h1 : isPre (base ++ x) k = true) :
    isPre (base ++ y) k = false := by
  cases hc : isPre (base ++ y) k
  · rfl
  · rcases isPre_comparable h1 hc with h | h
    · rw [isPre_cancel] at h
      rw [h] at hxy1
      cases hxy1
    · rw [isPre_cancel] at h
      rw [h] at hxy2
      cases hxy2

/-- Subtrees rooted under two disjoint bases are disjoint. -/
theorem off_root_out {A B : Path} (h1 : isPre A B = false)
    (h2 : isPre B A = false) {x y : Path} (k : Path)
    (hA : isPre (A ++ x) k = true) : isPre (B ++ y) k = false := by
  cases hc : isPre (B ++ y) k
  · rfl
  · have hAk := isPre_trans (isPre_append A x) hA
    have hBk := isPre_trans (isPre_append B y) hc
    rcases isPre_comparable hAk hBk with h | h
    · rw [h] at h1
      cases h1
    · rw [h] at h2
      cases h2

theorem restrictFiles_restrictFiles (t x : Path) (l : List (Path × Content)) :
    restrictFiles x (restrictFiles t l) = restrictFiles (t ++ x) l := by
  induction l with
  | nil => rfl
  | cons e es ih =>
      rw [restrictFiles_cons, restrictFiles_cons]
      by_cases ht : isPre t e.1
      · have hdrop : e.1 = t ++ e.1.drop t.length := eq_append_drop_of_isPre ht
        by_cases htx : isPre (t ++ x) e.1
        · have hx : isPre x (e.1.drop t.length) = true := by
            have h0 : isPre (t ++ x) (t ++ e.1.drop t.length) = true := by
              rw [← hdrop]
              exact htx
            rw [isPre_cancel] at h0
            exact h0
          rw [if_pos ht, if_pos htx, restrictFiles_cons, if_pos hx, ih]
          have hd2 : (e.1.drop t.length).drop x.length =
              e.1.drop (t ++ x).length := by
            rw [List.drop_drop, List.length_append, Nat.add_comm]
          rw [hd2]
        · have hx : isPre x (e.1.drop t.length) = false := by
            cases hcc : isPre x (e.1.drop t.length)
            · rfl
            · exfalso
              apply htx
              rw [hdrop, isPre_cancel]
              exact hcc
          rw [if_pos ht, if_neg (by simp [htx]), restrictFiles_cons,
            if_neg (by simp [hx]), ih]
      · have htx : isPre (t ++ x) e.1 = false := by
          cases hcc : isPre (t ++ x) e.1
          · rfl
          · have := isPre_trans (isPre_append t x) hcc
            rw [this] at ht
            exact absurd rfl ht
        rw [if_neg (by simp [ht]), if_neg (by simp [htx]), ih]

theorem restrictFiles_mapped_deep (t x : Path) (F : List (Path × Content)) :
    restrictFiles (t ++ x) (F.map (fun e => (t ++ e.1, e.2))) =
      restrictFiles x F := by
  have h := restrictFiles_restrictFiles t x (F.map (fun e => (t ++ e.1, e.2)))
  rw [← h, restrictFiles_mapped]

/-- A subtree copy is invisible to restrictions disjoint from its
destination. -/
theorem restrict_copytree_out {fs : FS} {src dst P : Path}
    (hdis : ∀ k : Path, isPre dst k = true → isPre P k = false) :
    restrictFiles P ((fs.copytreeInto src dst).files) =
      restrictFiles P fs.files := by
  rw [files_copytreeInto, restrictFiles_append,
    restrictFiles_eq_nil (fun e he => hdis _ (mem_moved_isPre he)),
    List.nil_append]
  apply restrictFiles_filter
  intro e _ hP
  rw [List.all_eq_true]
  intro c hcm
  simp only [Bool.not_eq_true', decide_eq_false_iff_not]
  intro hcc
  have hck := mem_moved_isPre hcm
  rw [hcc] at hck
  rw [hdis e.1 hck] at hP
  cases hP

/-- Restricting at the destination of a subtree copy into a previously
empty region yields the source restriction. -/
theorem restrict_copytree_dst {fs : FS} {src dst : Path}
    (hnone : ∀ e ∈ fs.files, isPre dst e.1 = false) :
    restrictFiles dst ((fs.copytreeInto src dst).files) =
      restrictFiles src fs.files := by
  rw [files_copytreeInto, restrictFiles_append, restrictFiles_moved]
  rw [restrictFiles_eq_nil (fun e he => hnone e (List.mem_filter.mp he).1),
    List.append_nil]

/-- Restricting below the extraction root yields the archive restriction. -/
theorem restrict_unpack_deep {fs1 : FS} {F : List (Path × Content)}
    {D : List Path} {t x : Path}
    (hfl : ∀ e ∈ fs1.files, isPre t e.1 = false) :
    restrictFiles (t ++ x) ((fs1.unpackInto F D t).files) =
      restrictFiles x F := by
  rw [files_unpackInto, restrictFiles_append, restrictFiles_mapped_deep]
  have hnil : restrictFiles (t ++ x) (fs1.files.filter
      (fun e => F.all (fun a => !(decide (t ++ a.1 = e.1))))) = [] := by
    apply restrictFiles_eq_nil
    intro e he
    have hmem := (List.mem_filter.mp he).1
    cases hc : isPre (t ++ x) e.1
    · rfl
    · have := isPre_trans (isPre_append t x) hc
      rw [hfl e hmem] at this
      cases this
  rw [hnil, List.append_nil]

/-- An extraction is invisible to restrictions disjoint from the staging
path. -/
theorem restrict_unpack_out {fs1 : FS} {F : List (Path × Content)}
    {D : List Path} {t P : Path}
    (hdis : ∀ k : Path, isPre t k = true → isPre P k = false) :
    restrictFiles P ((fs1.unpackInto F D t).files) =
      restrictFiles P fs1.files := by
  rw [files_unpackInto, restrictFiles_append,
    restrictFiles_eq_nil (fun e he => hdis _ (mem_mapped_isPre he)),
    List.nil_append]
  apply restrictFiles_filter
  intro e _ hP
  rw [List.all_eq_true]
  intro a _
  simp only [Bool.not_eq_true', decide_eq_false_iff_not]
  intro hc
  have hck : isPre t e.1 = true := by
    rw [← hc]
    exact isPre_append _ _
  rw [hdis e.1 hck] at hP
  cases hP

/-- A single written file is invisible to restrictions elsewhere. -/
theorem restrict_setFile_out {fs : FS} {p : Path} {c : Content} {P : Path}
    (hp : isPre P p = false) :
    restrictFiles P ((fs.setFile p c).files) = restrictFiles P fs.files := by
  rw [files_setFile, restrictFiles_cons, if_neg (by simp [hp])]
  apply restrictFiles_filter
  intro e _ hP
  simp only [Bool.not_eq_true', decide_eq_false_iff_not]
  intro hc
  rw [hc, hp] at hP
  cases hP

theorem not_pre_of_branch {base x y rel : Path} (hxy : isPre x y = false) :
    isPre ((base ++ x) ++ rel) (base ++ y) = false := by
  cases hc : isPre ((base ++ x) ++ rel) (base ++ y)
  · rfl
  · have h1 : isPre (base ++ x) (base ++ y) = true :=
      isPre_trans (isPre_append (base ++ x) rel) hc
    rw [isPre_cancel] at h1
    rw [h1] at hxy
    cases hxy

theorem not_pre_of_off {A B : Path} (h1 : isPre A B = false)
    (h2 : isPre B A = false) {x y rel : Path} :
    isPre ((A ++ x) ++ rel) (B ++ y) = false := by
  cases hc : isPre ((A ++ x) ++ rel) (B ++ y)
  · rfl
  · have hA : isPre A (B ++ y) = true :=
      isPre_trans (isPre_trans (isPre_append A x)
        (isPre_append (A ++ x) rel)) hc
    rcases isPre_comparable hA (isPre_append B y) with h | h
    · rw [h] at h1
      cases h1
    · rw [h] at h2
      cases h2

/-- Membership in the copy destination subtree after a subtree copy whose
destination did not hold the path before. -/
theorem mem_copytree_dst_iff {fs : FS} {src dst rel : Path} (hrel : rel ≠ [])
    (hnot2 : (dst ++ rel) ∉ fs.dirs) :
    (dst ++ rel) ∈ (fs.copytreeInto src dst).dirs ↔ (src ++ rel) ∈ fs.dirs := by
  rw [mem_dirs_copytreeInto]
  constructor
  · rintro (h | ⟨hne, hq⟩ | ⟨d0, hd0, hp0, heq⟩)
    · exact absurd h hnot2
    · exact absurd (isPre_antisymm hq (isPre_append dst rel))
        (append_ne_left hrel)
    · have hd : rel = d0.drop src.length := by
        dsimp only [movePath] at heq
        exact List.append_cancel_left heq
      have hd0eq : d0 = src ++ rel := by
        rw [hd]
        exact eq_append_drop_of_isPre hp0
      rw [← hd0eq]
      exact hd0
  · intro h
    right; right
    exact ⟨src ++ rel, h, isPre_append _ _, by rw [movePath_append]⟩

/-- Membership away from the copy destination is unchanged by a subtree
copy. -/
theorem mem_copytree_out_iff {fs : FS} {src dst q : Path}
    (hq1 : isPre dst q = false) (hq2 : isPre q dst = false) :
    q ∈ (fs.copytreeInto src dst).dirs ↔ q ∈ fs.dirs := by
  rw [mem_dirs_copytreeInto]
  constructor
  · rintro (h | ⟨hne, hqd⟩ | ⟨d0, hd0, hp0, rfl⟩)
    · exact h
    · rw [hqd] at hq2
      cases hq2
    · have hx : isPre dst (movePath src dst d0) = true := isPre_append _ _
      rw [hq1] at hx
      cases hx
  · exact Or.inl

/-- Membership below the staging path after extraction is membership of the
relative path among the archive's directory entries. -/
theorem mem_restore_fs2_iff {tmp2 : Path} {F : List (Path × Content)}
    {D : List Path} {fsM : FS}
    (hfd : ∀ d ∈ fsM.dirs, isPre tmp2 d = false)
    {a : Path} (ha : a ≠ []) :
    (tmp2 ++ a) ∈ (restore_fs2 tmp2 F D fsM).dirs ↔ a ∈ D := by
  rw [restore_fs2, mem_dirs_unpackInto, mem_dirs_addDir]
  constructor
  · rintro ((h | h) | ⟨d, hd, heq⟩)
    · have hx := hfd _ h
      rw [isPre_append] at hx
      cases hx
    · exact absurd h (append_ne_left ha)
    · rw [List.append_cancel_left heq]
      exact hd
  · intro h
    right
    exact ⟨a, h, rfl⟩

/-- Extraction adds nothing below a root disjoint from the staging path. -/
theorem not_mem_restore_fs2_root {tmp2 root2 : Path}
    {F : List (Path × Content)} {D : List Path} {fsM : FS}
    (hempty_d : ∀ d ∈ fsM.dirs, isPre root2 d = false)
    (h21 : isPre root2 tmp2 = false) (h22 : isPre tmp2 root2 = false)
    {x q : Path} (hq : isPre (root2 ++ x) q = true) :
    q ∉ (restore_fs2 tmp2 F D fsM).dirs := by
  intro hmem
  have hroot2q : isPre root2 q = true := isPre_trans (isPre_append root2 x) hq
  rw [restore_fs2, mem_dirs_unpackInto, mem_dirs_addDir] at hmem
  rcases hmem with (h | rfl) | ⟨d, _, rfl⟩
  · rw [hempty_d _ h] at hroot2q
    cases hroot2q
  · rw [hroot2q] at h21
    cases h21
  · rcases isPre_comparable hroot2q (isPre_append tmp2 d) with h | h
    · rw [h] at h21
      cases h21
    · rw [h] at h22
      cases h22

theorem pre_ext_false {root y : Path} (h : isPre root y = false) (x : Path) :
    isPre (root ++ x) y = false := by
  cases hc : isPre (root ++ x) y
  · rfl
  · have hx := isPre_trans (isPre_append root x) hc
    rw [h] at hx
    cases hx

/-- A sibling branch is never a prefix of a path inside the other branch. -/
theorem branch_out_pre {base x y rel : Path} (h1 : isPre y x = false)
    (h2 : isPre x y = false) :
    isPre (base ++ y) ((base ++ x) ++ rel) = false := by
  cases hc : isPre (base ++ y) ((base ++ x) ++ rel)
  · rfl
  · rcases isPre_comparable hc (isPre_append (base ++ x) rel) with h | h
    · rw [isPre_cancel] at h
      rw [h] at h1
      cases h1
    · rw [isPre_cancel] at h
      rw [h] at h2
      cases h2

/-- A subtree of one disjoint base is never prefixed by the other base. -/
theorem off_pre_of_off {A B : Path} (h1 : isPre A B = false)
    (h2 : isPre B A = false) {x y rel : Path} :
    isPre (B ++ y) ((A ++ x) ++ rel) = false := by
  cases hc : isPre (B ++ y) ((A ++ x) ++ rel)
  · rfl
  · have hB : isPre B ((A ++ x) ++ rel) = true :=
      isPre_trans (isPre_append B y) hc
    have hA : isPre A ((A ++ x) ++ rel) = true :=
      isPre_trans (isPre_append A x) (isPre_append (A ++ x) rel)
    rcases isPre_comparable hA hB with h | h
    · rw [h] at h1
      cases h1
    · rw [h] at h2
      cases h2

/-- Below the installation root, the destination-folder creation and the
staging-directory creation of backup are invisible. -/
theorem mem_backup_fs2_root {dest tmp root : Path} {fs0 : FS}
    (hrd : isPre root dest = false) (ht1 : isPre root tmp = false)
    {q : Path} (hq : isPre root q = true) :
    q ∈ (backup_fs2 dest tmp fs0).dirs ↔ q ∈ fs0.dirs := by
  rw [backup_fs2, mem_dirs_addDir]
  constructor
  · rintro (h | rfl)
    · rw [backup_fs1] at h
      by_cases hde : fs0.existsPath dest = true
      · rw [if_pos hde] at h
        exact h
      · rw [if_neg hde, mem_dirs_makedirs] at h
        rcases h with h | ⟨_, hqd⟩
        · exact h
        · have hx := isPre_trans hq hqd
          rw [hrd] at hx
          cases hx
    · rw [hq] at ht1
      cases ht1
  · intro h
    left
    rw [backup_fs1]
    split
    · exact h
    · rw [mem_dirs_makedirs]
      left
      exact h

/-- C1 (amended: the destination folder must not lie under the installation
root, and the usual staging-area freshness and disjointness conditions of
`tempfile.TemporaryDirectory` hold): for an installation root containing
both the `ModsSource` and `Engine/Mods` subdirectories whose registry
export succeeds, running backup and then restore of the produced archive
into an empty installation root reproduces the original `ModsSource` and
`Engine/Mods` trees byte-for-byte: the files below each restored
subdirectory are exactly the original files (same relative paths, same
contents, same order) and the restored directory sets coincide with the
original ones. -/
theorem c1_backup_restore_roundtrip (root dest root2 : Path) (rc ts : String)
    (tmp tmp2 : Path) (fs0 : FS) (rI : Content → Except String Unit)
    (hmsdir : containsPath fs0.dirs (root ++ ["ModsSource"]) = true)
    (hemdir : containsPath fs0.dirs (root ++ ["Engine", "Mods"]) = true)
    (hf : fs0.freshFor tmp = true)
    (ht1 : isPre root tmp = false) (ht2 : isPre tmp root = false)
    (hzp : isPre tmp (dest ++ [zipFileName ts]) = false)
    (hrd : isPre root dest = false)
    (hf2 : (execute_backup_operation root dest (.ok rc) ts tmp
      fs0).fs.freshFor tmp2 = true)
    (hempty : (execute_backup_operation root dest (.ok rc) ts tmp
      fs0).fs.freshFor root2 = true)
    (h21 : isPre root2 tmp2 = false) (h22 : isPre tmp2 root2 = false) :
    restrictFiles (root2 ++ ["ModsSource"])
      ((execute_restore_operation root2 (dest ++ [zipFileName ts]) rI tmp2
        (execute_backup_operation root dest (.ok rc) ts tmp fs0).fs).fs.files)
      = restrictFiles (root ++ ["ModsSource"]) fs0.files ∧
    restrictFiles (root2 ++ ["Engine", "Mods"])
      ((execute_restore_operation root2 (dest ++ [zipFileName ts]) rI tmp2
        (execute_backup_operation root dest (.ok rc) ts tmp fs0).fs).fs.files)
      = restrictFiles (root ++ ["Engine", "Mods"]) fs0.files ∧
    sameSet
      (restrictDirs (root2 ++ ["ModsSource"])
        ((execute_restore_operation root2 (dest ++ [zipFileName ts]) rI tmp2
          (execute_backup_operation root dest (.ok rc) ts tmp fs0).fs).fs.dirs))
      (restrictDirs (root ++ ["ModsSource"]) fs0.dirs) = true ∧
    sameSet
      (restrictDirs (root2 ++ ["Engine", "Mods"])
        ((execute_restore_operation root2 (dest ++ [zipFileName ts]) rI tmp2
          (execute_backup_operation root dest (.ok rc) ts tmp fs0).fs).fs.dirs))
      (restrictDirs (root ++ ["Engine", "Mods"]) fs0.dirs) = true := by
  set fsMid := (execute_backup_operation root dest (.ok rc) ts tmp fs0).fs
    with hMid
  have hfd : ∀ d ∈ fs0.dirs, isPre tmp d = false := (freshFor_iff.mp hf).1
  have hfl : ∀ e ∈ fs0.files, isPre tmp e.1 = false := (freshFor_iff.mp hf).2
  have htd : isPre tmp dest = false := by
    cases hc : isPre tmp dest
    · rfl
    · have := isPre_extend [zipFileName ts] hc
      rw [hzp] at this
      cases this
  have hmsEx : backup_msExists root dest tmp fs0 = true := by
    rw [backup_msExists, existsPath_iff]
    left
    rw [backup_fs2, mem_dirs_addDir]
    left
    rw [backup_fs1]
    split
    · exact containsPath_iff.mp hmsdir
    · rw [mem_dirs_makedirs]
      left
      exact containsPath_iff.mp hmsdir
  have hms3 : tmp ++ ["ModsSource"] ∈ (backup_fs3 root dest tmp fs0).dirs := by
    rw [backup_fs3, if_pos hmsEx, mem_dirs_copytreeInto]
    right; left
    exact ⟨by simp, isPre_refl _⟩
  have hemEx : backup_emExists root dest tmp fs0 = true := by
    rw [backup_emExists, existsPath_iff]
    left
    have hbase : root ++ ["Engine", "Mods"] ∈ (backup_fs2 dest tmp fs0).dirs := by
      rw [backup_fs2, mem_dirs_addDir]
      left
      rw [backup_fs1]
      split
      · exact containsPath_iff.mp hemdir
      · rw [mem_dirs_makedirs]
        left
        exact containsPath_iff.mp hemdir
    rw [backup_fs3, if_pos hmsEx, mem_dirs_copytreeInto]
    left
    exact hbase
  have hms4 : tmp ++ ["ModsSource"] ∈ (backup_fs4 root dest tmp fs0).dirs := by
    rw [backup_fs4, if_pos hemEx, mem_dirs_copytreeInto]
    left
    exact hms3
  have hem4 : tmp ++ ["Engine", "Mods"] ∈ (backup_fs4 root dest tmp fs0).dirs := by
    rw [backup_fs4, if_pos hemEx, mem_dirs_copytreeInto]
    right; left
    exact ⟨by simp, isPre_refl _⟩
  have harch : lookupFile (dest ++ [zipFileName ts]) fsMid.files =
      some (.zip
        (restrictFiles tmp (((backup_fs4 root dest tmp fs0).setFile
          (tmp ++ ["Windhawk.reg"]) (.bytes rc)).files))
        (restrictDirs tmp (((backup_fs4 root dest tmp fs0).setFile
          (tmp ++ ["Windhawk.reg"]) (.bytes rc)).dirs))) := by
    rw [hMid]
    unfold execute_backup_operation
    dsimp only
    rw [lookup_removeTree_out hzp, FS.makeArchive, lookup_setFile_self]
    rfl
  set Fx := restrictFiles tmp (((backup_fs4 root dest tmp fs0).setFile
    (tmp ++ ["Windhawk.reg"]) (.bytes rc)).files) with hFx
  set Dx := restrictDirs tmp (((backup_fs4 root dest tmp fs0).setFile
    (tmp ++ ["Windhawk.reg"]) (.bytes rc)).dirs) with hDx
  have hfd2 : ∀ d ∈ fsMid.dirs, isPre tmp2 d = false := (freshFor_iff.mp hf2).1
  have hfl2 : ∀ e ∈ fsMid.files, isPre tmp2 e.1 = false :=
    (freshFor_iff.mp hf2).2
  have hed : ∀ d ∈ fsMid.dirs, isPre root2 d = false :=
    (freshFor_iff.mp hempty).1
  have hef : ∀ e ∈ fsMid.files, isPre root2 e.1 = false :=
    (freshFor_iff.mp hempty).2
  have hDms : ["ModsSource"] ∈ Dx := by
    rw [hDx, dirs_setFile]
    exact mem_restrictDirs.mpr ⟨by simp, hms4⟩
  have hDem : ["Engine", "Mods"] ∈ Dx := by
    rw [hDx, dirs_setFile]
    exact mem_restrictDirs.mpr ⟨by simp, hem4⟩
  have hmsEx2 : restore_msExists tmp2 Fx Dx fsMid = true := by
    rw [restore_msExists, existsPath_iff]
    left
    rw [restore_fs2, mem_dirs_unpackInto]
    right
    exact ⟨["ModsSource"], hDms, rfl⟩
  have hemEx2 : restore_emExists root2 tmp2 Fx Dx fsMid = true :=
    restore_emExists_true (containsPath_iff.mpr hDem)
  have hfsF : (execute_restore_operation root2 (dest ++ [zipFileName ts]) rI
      tmp2 fsMid).fs = (restore_fs4 root2 tmp2 Fx Dx fsMid).removeTree tmp2 := by
    unfold execute_restore_operation
    dsimp only
    rw [files_addDir, harch]
    dsimp only
    split
    · split <;> rfl
    · rfl
  have hfl2' : ∀ e ∈ (fsMid.addDir tmp2).files, isPre tmp2 e.1 = false := by
    rw [files_addDir]
    exact hfl2
  have hkeep : ∀ (x : Path),
      ∀ e ∈ (restore_fs4 root2 tmp2 Fx Dx fsMid).files,
        isPre (root2 ++ x) e.1 = true → (!(isPre tmp2 e.1)) = true := by
    intro x e _ hP
    have hr : isPre root2 e.1 = true := isPre_trans (isPre_append root2 x) hP
    cases hc : isPre tmp2 e.1
    · rfl
    · rcases isPre_comparable hr hc with h | h
      · rw [h] at h21
        cases h21
      · rw [h] at h22
        cases h22
  have hnone2 : ∀ (x : Path),
      ∀ e ∈ (restore_fs2 tmp2 Fx Dx fsMid).files,
        isPre (root2 ++ x) e.1 = false := by
    intro x e he
    rw [restore_fs2, files_unpackInto] at he
    rcases List.mem_append.mp he with he | he
    · exact pre_ext_false (root_out_of_tmp h21 h22 (mem_mapped_isPre he)) x
    · have hmem := (List.mem_filter.mp he).1
      rw [files_addDir] at hmem
      exact pre_ext_false (hef e hmem) x
  have hback : ∀ e ∈ (backup_fs2 dest tmp fs0).files,
      isPre (tmp ++ ["ModsSource"]) e.1 = false := by
    intro e he
    rw [backup_fs2_files] at he
    exact pre_ext_false (hfl e he) _
  have hnoneEMr : ∀ e ∈ (restore_fs3 root2 tmp2 Fx Dx fsMid).files,
      isPre (root2 ++ ["Engine", "Mods"]) e.1 = false := by
    intro e he
    rw [restore_fs3, if_pos hmsEx2, files_copytreeInto] at he
    rcases List.mem_append.mp he with he | he
    · exact branch_out (by simp [isPre]) (by simp [isPre]) e.1
        (mem_moved_isPre he)
    · exact hnone2 ["Engine", "Mods"] e (List.mem_filter.mp he).1
  have hnoneEMb : ∀ e ∈ (backup_fs3 root dest tmp fs0).files,
      isPre (tmp ++ ["Engine", "Mods"]) e.1 = false := by
    intro e he
    rw [backup_fs3, if_pos hmsEx, files_copytreeInto] at he
    rcases List.mem_append.mp he with he | he
    · exact branch_out (by simp [isPre]) (by simp [isPre]) e.1
        (mem_moved_isPre he)
    · have hmem := (List.mem_filter.mp he).1
      rw [backup_fs2_files] at hmem
      exact pre_ext_false (hfl e hmem) _
  have hFilesMS : restrictFiles (root2 ++ ["ModsSource"])
      ((execute_restore_operation root2 (dest ++ [zipFileName ts]) rI tmp2
        fsMid).fs.files) = restrictFiles (root ++ ["ModsSource"]) fs0.files := by
    rw [hfsF, files_removeTree, restrictFiles_filter (hkeep ["ModsSource"])]
    rw [restore_fs4, if_pos hemEx2,
      restrict_copytree_out
        (fun k hk => branch_out (by simp [isPre]) (by simp [isPre]) k hk)]
    rw [restore_fs3, if_pos hmsEx2, restrict_copytree_dst (hnone2 ["ModsSource"])]
    rw [restore_fs2, restrict_unpack_deep hfl2']
    rw [hFx, restrictFiles_restrictFiles]
    rw [restrict_setFile_out (by rw [isPre_cancel]; simp [isPre])]
    rw [backup_fs4, if_pos hemEx,
      restrict_copytree_out
        (fun k hk => branch_out (by simp [isPre]) (by simp [isPre]) k hk)]
    rw [backup_fs3, if_pos hmsEx, restrict_copytree_dst hback]
    rw [backup_fs2_files]
  have hFilesEM : restrictFiles (root2 ++ ["Engine", "Mods"])
      ((execute_restore_operation root2 (dest ++ [zipFileName ts]) rI tmp2
        fsMid).fs.files) =
      restrictFiles (root ++ ["Engine", "Mods"]) fs0.files := by
    rw [hfsF, files_removeTree, restrictFiles_filter (hkeep ["Engine", "Mods"])]
    rw [restore_fs4, if_pos hemEx2, restrict_copytree_dst hnoneEMr]
    rw [restore_fs3, if_pos hmsEx2,
      restrict_copytree_out (fun k hk => off_root_out h21 h22 k hk)]
    rw [restore_fs2, restrict_unpack_deep hfl2']
    rw [hFx, restrictFiles_restrictFiles]
    rw [restrict_setFile_out (by rw [isPre_cancel]; simp [isPre])]
    rw [backup_fs4, if_pos hemEx, restrict_copytree_dst hnoneEMb]
    rw [backup_fs3, if_pos hmsEx,
      restrict_copytree_out (fun k hk => off_root_out ht2 ht1 k hk)]
    rw [backup_fs2_files]
  have hdirsMS : ∀ rel : Path, rel ≠ [] →
      ((root2 ++ ["ModsSource"]) ++ rel ∈
        (execute_restore_operation root2 (dest ++ [zipFileName ts]) rI tmp2
          fsMid).fs.dirs ↔
       (root ++ ["ModsSource"]) ++ rel ∈ fs0.dirs) := by
    intro rel hrel
    have htq : isPre tmp2 ((root2 ++ ["ModsSource"]) ++ rel) = false := by
      rw [List.append_assoc]
      exact isPre_tmp_rootext h22 h21 _
    rw [hfsF]
    have h0 : (root2 ++ ["ModsSource"]) ++ rel ∈
        ((restore_fs4 root2 tmp2 Fx Dx fsMid).removeTree tmp2).dirs ↔
        (root2 ++ ["ModsSource"]) ++ rel ∈
          (restore_fs4 root2 tmp2 Fx Dx fsMid).dirs := by
      rw [mem_dirs_removeTree, htq]
      simp
    have h1 : (root2 ++ ["ModsSource"]) ++ rel ∈
        (restore_fs4 root2 tmp2 Fx Dx fsMid).dirs ↔
        (root2 ++ ["ModsSource"]) ++ rel ∈
          (restore_fs3 root2 tmp2 Fx Dx fsMid).dirs := by
      rw [restore_fs4, if_pos hemEx2]
      exact mem_copytree_out_iff
        (branch_out_pre (by simp [isPre]) (by simp [isPre]))
        (not_pre_of_branch (by simp [isPre]))
    have h2x : (root2 ++ ["ModsSource"]) ++ rel ∈
        (restore_fs3 root2 tmp2 Fx Dx fsMid).dirs ↔
        (tmp2 ++ ["ModsSource"]) ++ rel ∈
          (restore_fs2 tmp2 Fx Dx fsMid).dirs := by
      rw [restore_fs3, if_pos hmsEx2]
      exact mem_copytree_dst_iff hrel
        (not_mem_restore_fs2_root hed h21 h22
          (isPre_append (root2 ++ ["ModsSource"]) rel))
    have h3 : (tmp2 ++ ["ModsSource"]) ++ rel ∈
        (restore_fs2 tmp2 Fx Dx fsMid).dirs ↔
        ["ModsSource"] ++ rel ∈ Dx := by
      rw [List.append_assoc]
      exact mem_restore_fs2_iff hfd2 (by simp)
    have h4 : ["ModsSource"] ++ rel ∈ Dx ↔
        (tmp ++ ["ModsSource"]) ++ rel ∈ (backup_fs4 root dest tmp fs0).dirs := by
      rw [hDx, dirs_setFile, mem_restrictDirs]
      constructor
      · rintro ⟨_, hm⟩
        rw [← List.append_assoc] at hm
        exact hm
      · intro hm
        refine ⟨by simp, ?_⟩
        rw [← List.append_assoc]
        exact hm
    have h5 : (tmp ++ ["ModsSource"]) ++ rel ∈
        (backup_fs4 root dest tmp fs0).dirs ↔
        (tmp ++ ["ModsSource"]) ++ rel ∈ (backup_fs3 root dest tmp fs0).dirs := by
      rw [backup_fs4, if_pos hemEx]
      exact mem_copytree_out_iff
        (branch_out_pre (by simp [isPre]) (by simp [isPre]))
        (not_pre_of_branch (by simp [isPre]))
    have h6 : (tmp ++ ["ModsSource"]) ++ rel ∈
        (backup_fs3 root dest tmp fs0).dirs ↔
        (root ++ ["ModsSource"]) ++ rel ∈ (backup_fs2 dest tmp fs0).dirs := by
      rw [backup_fs3, if_pos hmsEx]
      refine mem_copytree_dst_iff hrel ?_
      intro hmem
      have heq := backup_fs2_dirs_under_tmp hfd htd hmem
        (isPre_trans (isPre_append tmp ["ModsSource"])
          (isPre_append (tmp ++ ["ModsSource"]) rel))
      rw [List.append_assoc] at heq
      exact append_ne_left (by simp) heq
    have h7 : (root ++ ["ModsSource"]) ++ rel ∈
        (backup_fs2 dest tmp fs0).dirs ↔
        (root ++ ["ModsSource"]) ++ rel ∈ fs0.dirs :=
      mem_backup_fs2_root hrd ht1
        (isPre_trans (isPre_append root ["ModsSource"])
          (isPre_append (root ++ ["ModsSource"]) rel))
    exact ((((((h0.trans h1).trans h2x).trans h3).trans h4).trans h5).trans
      h6).trans h7
  have hdirsEM : ∀ rel : Path, rel ≠ [] →
      ((root2 ++ ["Engine", "Mods"]) ++ rel ∈
        (execute_restore_operation root2 (dest ++ [zipFileName ts]) rI tmp2
          fsMid).fs.dirs ↔
       (root ++ ["Engine", "Mods"]) ++ rel ∈ fs0.dirs) := by
    intro rel hrel
    have htq : isPre tmp2 ((root2 ++ ["Engine", "Mods"]) ++ rel) = false := by
      rw [List.append_assoc]
      exact isPre_tmp_rootext h22 h21 _
    rw [hfsF]
    have h0 : (root2 ++ ["Engine", "Mods"]) ++ rel ∈
        ((restore_fs4 root2 tmp2 Fx Dx fsMid).removeTree tmp2).dirs ↔
        (root2 ++ ["Engine", "Mods"]) ++ rel ∈
          (restore_fs4 root2 tmp2 Fx Dx fsMid).dirs := by
      rw [mem_dirs_removeTree, htq]
      simp
    have hnotf3 : (root2 ++ ["Engine", "Mods"]) ++ rel ∉
        (restore_fs3 root2 tmp2 Fx Dx fsMid).dirs := by
      intro hmem
      rw [restore_fs3, if_pos hmsEx2, mem_dirs_copytreeInto] at hmem
      rcases hmem with hmem | ⟨_, hq⟩ | ⟨d0, _, _, heq⟩
      · exact not_mem_restore_fs2_root hed h21 h22
          (isPre_append (root2 ++ ["Engine", "Mods"]) rel) hmem
      · rw [not_pre_of_branch (by simp [isPre])] at hq
        cases hq
      · have hx : isPre (root2 ++ ["ModsSource"])
            ((root2 ++ ["Engine", "Mods"]) ++ rel) = true := by
          rw [heq]
          dsimp only [movePath]
          exact isPre_append _ _
        rw [branch_out_pre (by simp [isPre]) (by simp [isPre])] at hx
        cases hx
    have h1 : (root2 ++ ["Engine", "Mods"]) ++ rel ∈
        (restore_fs4 root2 tmp2 Fx Dx fsMid).dirs ↔
        (tmp2 ++ ["Engine", "Mods"]) ++ rel ∈
          (restore_fs3 root2 tmp2 Fx Dx fsMid).dirs := by
      rw [restore_fs4, if_pos hemEx2]
      exact mem_copytree_dst_iff hrel hnotf3
    have h2x : (tmp2 ++ ["Engine", "Mods"]) ++ rel ∈
        (restore_fs3 root2 tmp2 Fx Dx fsMid).dirs ↔
        (tmp2 ++ ["Engine", "Mods"]) ++ rel ∈
          (restore_fs2 tmp2 Fx Dx fsMid).dirs := by
      rw [restore_fs3, if_pos hmsEx2]
      exact mem_copytree_out_iff (off_pre_of_off h22 h21)
        (not_pre_of_off h22 h21)
    have h3 : (tmp2 ++ ["Engine", "Mods"]) ++ rel ∈
        (restore_fs2 tmp2 Fx Dx fsMid).dirs ↔
        ["Engine", "Mods"] ++ rel ∈ Dx := by
      rw [List.append_assoc]
      exact mem_restore_fs2_iff hfd2 (by simp)
    have h4 : ["Engine", "Mods"] ++ rel ∈ Dx ↔
        (tmp ++ ["Engine", "Mods"]) ++ rel ∈
          (backup_fs4 root dest tmp fs0).dirs := by
      rw [hDx, dirs_setFile, mem_restrictDirs]
      constructor
      · rintro ⟨_, hm⟩
        rw [← List.append_assoc] at hm
        exact hm
      · intro hm
        refine ⟨by simp, ?_⟩
        rw [← List.append_assoc]
        exact hm
    have hnotf3b : (tmp ++ ["Engine", "Mods"]) ++ rel ∉
        (backup_fs3 root dest tmp fs0).dirs := by
      intro hmem
      rw [backup_fs3, if_pos hmsEx, mem_dirs_copytreeInto] at hmem
      rcases hmem with hmem | ⟨_, hq⟩ | ⟨d0, _, _, heq⟩
      · have heq2 := backup_fs2_dirs_under_tmp hfd htd hmem
          (isPre_trans (isPre_append tmp ["Engine", "Mods"])
            (isPre_append (tmp ++ ["Engine", "Mods"]) rel))
        rw [List.append_assoc] at heq2
        exact append_ne_left (by simp) heq2
      · rw [not_pre_of_branch (by simp [isPre])] at hq
        cases hq
      · have hx : isPre (tmp ++ ["ModsSource"])
            ((tmp ++ ["Engine", "Mods"]) ++ rel) = true := by
          rw [heq]
          dsimp only [movePath]
          exact isPre_append _ _
        rw [branch_out_pre (by simp [isPre]) (by simp [isPre])] at hx
        cases hx
    have h5 : (tmp ++ ["Engine", "Mods"]) ++ rel ∈
        (backup_fs4 root dest tmp fs0).dirs ↔
        (root ++ ["Engine", "Mods"]) ++ rel ∈
          (backup_fs3 root dest tmp fs0).dirs := by
      rw [backup_fs4, if_pos hemEx]
      exact mem_copytree_dst_iff hrel hnotf3b
    have h6 : (root ++ ["Engine", "Mods"]) ++ rel ∈
        (backup_fs3 root dest tmp fs0).dirs ↔
        (root ++ ["Engine", "Mods"]) ++ rel ∈ (backup_fs2 dest tmp fs0).dirs := by
      rw [backup_fs3, if_pos hmsEx]
      exact mem_copytree_out_iff (off_pre_of_off ht1 ht2)
        (not_pre_of_off ht1 ht2)
    have h7 : (root ++ ["Engine", "Mods"]) ++ rel ∈
        (backup_fs2 dest tmp fs0).dirs ↔
        (root ++ ["Engine", "Mods"]) ++ rel ∈ fs0.dirs :=
      mem_backup_fs2_root hrd ht1
        (isPre_trans (isPre_append root ["Engine", "Mods"])
          (isPre_append (root ++ ["Engine", "Mods"]) rel))
    exact ((((((h0.trans h1).trans h2x).trans h3).trans h4).trans h5).trans
      h6).trans h7
  refine ⟨hFilesMS, hFilesEM, ?_, ?_⟩
  · apply sameSet_of_iff
    intro r
    rw [mem_restrictDirs, mem_restrictDirs]
    constructor
    · rintro ⟨hne, hm⟩
      exact ⟨hne, (hdirsMS r hne).mp hm⟩
    · rintro ⟨hne, hm⟩
      exact ⟨hne, (hdirsMS r hne).mpr hm⟩
  · apply sameSet_of_iff
    intro r
    rw [mem_restrictDirs, mem_restrictDirs]
    constructor
    · rintro ⟨hne, hm⟩
      exact ⟨hne, (hdirsEM r hne).mp hm⟩
    · rintro ⟨hne, hm⟩
      exact ⟨hne, (hdirsEM r hne).mpr hm⟩

/-- Concrete instance of the export-failure theorem. -/
theorem c2_backup_export_failure_witness :
    (FS.freshFor
      { dirs := [["r"], ["r", "ModsSource"], ["r", "Engine"],
          ["r", "Engine", "Mods"]],
        files := [(["r", "ModsSource", "a.txt"], .bytes "A")] } ["t"] = true) ∧
    ((execute_backup_operation ["r"] ["d"] (.error "boom") "T" ["t"]
      { dirs := [["r"], ["r", "ModsSource"], ["r", "Engine"],
          ["r", "Engine", "Mods"]],
        files := [(["r", "ModsSource", "a.txt"], .bytes "A")] }).success = false ∧
    regExportErrMsg "boom" ∈
      (execute_backup_operation ["r"] ["d"] (.error "boom") "T" ["t"]
        { dirs := [["r"], ["r", "ModsSource"], ["r", "Engine"],
            ["r", "Engine", "Mods"]],
          files := [(["r", "ModsSource", "a.txt"], .bytes "A")] }).log ∧
    (execute_backup_operation ["r"] ["d"] (.error "boom") "T" ["t"]
      { dirs := [["r"], ["r", "ModsSource"], ["r", "Engine"],
          ["r", "Engine", "Mods"]],
        files := [(["r", "ModsSource", "a.txt"], .bytes "A")] }).fs.files =
      [(["r", "ModsSource", "a.txt"], .bytes "A")] ∧
    ((execute_backup_operation ["r"] ["d"] (.error "boom") "T" ["t"]
      { dirs := [["r"], ["r", "ModsSource"], ["r", "Engine"],
          ["r", "Engine", "Mods"]],
        files := [(["r", "ModsSource", "a.txt"], .bytes "A")] }).fs).freshFor
      ["t"] = true) :=
  ⟨by decide,
   c2_backup_export_failure ["r"] ["d"] "boom" "T" ["t"]
     { dirs := [["r"], ["r", "ModsSource"], ["r", "Engine"],
         ["r", "Engine", "Mods"]],
       files := [(["r", "ModsSource", "a.txt"], .bytes "A")] } (by decide)⟩

/-- Concrete instance of the invalid-archive theorem. -/
theorem c3_restore_invalid_archive_witness :
    (FS.freshFor
      { dirs := [["r"], ["r", "ModsSource"]],
        files := [(["a.zip"], .bytes "not an archive")] } ["t"] = true) ∧
    (isZipAt
      { dirs := [["r"], ["r", "ModsSource"]],
        files := [(["a.zip"], .bytes "not an archive")] } ["a.zip"] = false) ∧
    ((execute_restore_operation ["r"] ["a.zip"] (fun _ => Except.ok ()) ["t"]
      { dirs := [["r"], ["r", "ModsSource"]],
        files := [(["a.zip"], .bytes "not an archive")] }).success = false ∧
    extractErrMsg ["a.zip"] ∈
      (execute_restore_operation ["r"] ["a.zip"] (fun _ => Except.ok ()) ["t"]
        { dirs := [["r"], ["r", "ModsSource"]],
          files := [(["a.zip"], .bytes "not an archive")] }).log ∧
    (execute_restore_operation ["r"] ["a.zip"] (fun _ => Except.ok ()) ["t"]
      { dirs := [["r"], ["r", "ModsSource"]],
        files := [(["a.zip"], .bytes "not an archive")] }).fs =
      { dirs := [["r"], ["r", "ModsSource"]],
        files := [(["a.zip"], .bytes "not an archive")] } ∧
    execute_restore_operation ["r"] ["a.zip"] (fun _ => Except.ok ()) ["t"]
      { dirs := [["r"], ["r", "ModsSource"]],
        files := [(["a.zip"], .bytes "not an archive")] } =
      execute_restore_operation ["r"] ["a.zip"] (fun _ => Except.error "e") ["t"]
        { dirs := [["r"], ["r", "ModsSource"]],
          files := [(["a.zip"], .bytes "not an archive")] }) :=
  ⟨by decide, by decide,
   c3_restore_invalid_archive ["r"] ["a.zip"] (fun _ => Except.ok ())
     (fun _ => Except.error "e") ["t"]
     { dirs := [["r"], ["r", "ModsSource"]],
       files := [(["a.zip"], .bytes "not an archive")] }
     (by decide) (by decide)⟩

/-- Concrete instance of the missing-ModsSource theorem. -/
theorem c7_backup_missing_modssource_witness :
    (FS.existsPath
      { dirs := [["r"], ["r", "Engine"], ["r", "Engine", "Mods"]],
        files := [(["r", "Engine", "Mods", "m.dll"], .bytes "M")] }
      (["r"] ++ ["ModsSource"]) = false) ∧
    (FS.freshFor
      { dirs := [["r"], ["r", "Engine"], ["r", "Engine", "Mods"]],
        files := [(["r", "Engine", "Mods", "m.dll"], .bytes "M")] } ["t"] = true) ∧
    (isPre ["r"] ["t"] = false) ∧
    (isPre ["r"] ["d"] = false) ∧
    (isPre ["t"] (["d"] ++ [zipFileName "T"]) = false) ∧
    ((execute_backup_operation ["r"] ["d"] (.ok "RC") "T" ["t"]
      { dirs := [["r"], ["r", "Engine"], ["r", "Engine", "Mods"]],
        files := [(["r", "Engine", "Mods", "m.dll"], .bytes "M")] }).success
      = true ∧
    isZipAt (execute_backup_operation ["r"] ["d"] (.ok "RC") "T" ["t"]
      { dirs := [["r"], ["r", "Engine"], ["r", "Engine", "Mods"]],
        files := [(["r", "Engine", "Mods", "m.dll"], .bytes "M")] }).fs
      (["d"] ++ [zipFileName "T"]) = true ∧
    archiveMentions (execute_backup_operation ["r"] ["d"] (.ok "RC") "T" ["t"]
      { dirs := [["r"], ["r", "Engine"], ["r", "Engine", "Mods"]],
        files := [(["r", "Engine", "Mods", "m.dll"], .bytes "M")] }).fs
      (["d"] ++ [zipFileName "T"]) "ModsSource" = false ∧
    ((execute_backup_operation ["r"] ["d"] (.ok "RC") "T" ["t"]
      { dirs := [["r"], ["r", "Engine"], ["r", "Engine", "Mods"]],
        files := [(["r", "Engine", "Mods", "m.dll"], .bytes "M")] }).log).count
      (msWarnMsg ["r"]) = 1) :=
  ⟨by decide, by decide, by decide, by decide, by decide,
   c7_backup_missing_modssource ["r"] ["d"] "RC" "T" ["t"]
     { dirs := [["r"], ["r", "Engine"], ["r", "Engine", "Mods"]],
       files := [(["r", "Engine", "Mods", "m.dll"], .bytes "M")] }
     (by decide) (by decide) (by decide) (by decide) (by decide)⟩

/-- Concrete instance of the archive-layout theorem. -/
theorem c8_backup_archive_layout_witness :
    (containsPath
      [["r"], ["r", "ModsSource"], ["r", "Engine"], ["r", "Engine", "Mods"]]
      (["r"] ++ ["ModsSource"]) = true) ∧
    (containsPath
      [["r"], ["r", "ModsSource"], ["r", "Engine"], ["r", "Engine", "Mods"]]
      (["r"] ++ ["Engine", "Mods"]) = true) ∧
    (isPre ["t"] (["d"] ++ [zipFileName "T"]) = false) ∧
    ((execute_backup_operation ["r"] ["d"] (.ok "RC") "T" ["t"]
      { dirs := [["r"], ["r", "ModsSource"], ["r", "Engine"],
          ["r", "Engine", "Mods"]],
        files := [(["r", "ModsSource", "a.txt"], .bytes "A")] }).success = true ∧
    zipLayoutOk (execute_backup_operation ["r"] ["d"] (.ok "RC") "T" ["t"]
      { dirs := [["r"], ["r", "ModsSource"], ["r", "Engine"],
          ["r", "Engine", "Mods"]],
        files := [(["r", "ModsSource", "a.txt"], .bytes "A")] }).fs
      (["d"] ++ [zipFileName "T"]) "RC" = true) :=
  ⟨by decide, by decide, by decide,
   c8_backup_archive_layout ["r"] ["d"] "RC" "T" ["t"]
     { dirs := [["r"], ["r", "ModsSource"], ["r", "Engine"],
         ["r", "Engine", "Mods"]],
       files := [(["r", "ModsSource", "a.txt"], .bytes "A")] }
     (by decide) (by decide) (by decide)⟩

/-- Concrete instance of the amended round-trip theorem. -/
theorem c1_backup_restore_roundtrip_witness :
    (containsPath
      [["r"], ["r", "ModsSource"], ["r", "Engine"], ["r", "Engine", "Mods"]]
      (["r"] ++ ["ModsSource"]) = true) ∧
    (containsPath
      [["r"], ["r", "ModsSource"], ["r", "Engine"], ["r", "Engine", "Mods"]]
      (["r"] ++ ["Engine", "Mods"]) = true) ∧
    (FS.freshFor
      { dirs := [["r"], ["r", "ModsSource"], ["r", "Engine"],
          ["r", "Engine", "Mods"]],
        files := [(["r", "ModsSource", "a.txt"], .bytes "A"),
          (["r", "Engine", "Mods", "m.dll"], .bytes "M")] } ["t"] = true) ∧
    (isPre ["r"] ["t"] = false) ∧
    (isPre ["t"] ["r"] = false) ∧
    (isPre ["t"] (["d"] ++ [zipFileName "T"]) = false) ∧
    (isPre ["r"] ["d"] = false) ∧
    ((execute_backup_operation ["r"] ["d"] (.ok "RC") "T" ["t"]
      { dirs := [["r"], ["r", "ModsSource"], ["r", "Engine"],
          ["r", "Engine", "Mods"]],
        files := [(["r", "ModsSource", "a.txt"], .bytes "A"),
          (["r", "Engine", "Mods", "m.dll"], .bytes "M")] }).fs.freshFor ["u"]
      = true) ∧
    ((execute_backup_operation ["r"] ["d"] (.ok "RC") "T" ["t"]
      { dirs := [["r"], ["r", "ModsSource"], ["r", "Engine"],
          ["r", "Engine", "Mods"]],
        files := [(["r", "ModsSource", "a.txt"], .bytes "A"),
          (["r", "Engine", "Mods", "m.dll"], .bytes "M")] }).fs.freshFor ["s"]
      = true) ∧
    (isPre ["s"] ["u"] = false) ∧
    (isPre ["u"] ["s"] = false) ∧
    (restrictFiles (["s"] ++ ["ModsSource"])
      ((execute_restore_operation ["s"] (["d"] ++ [zipFileName "T"])
        (fun _ => Except.ok ()) ["u"]
        (execute_backup_operation ["r"] ["d"] (.ok "RC") "T" ["t"]
          { dirs := [["r"], ["r", "ModsSource"], ["r", "Engine"],
              ["r", "Engine", "Mods"]],
            files := [(["r", "ModsSource", "a.txt"], .bytes "A"),
              (["r", "Engine", "Mods", "m.dll"], .bytes "M")] }).fs).fs.files)
      = restrictFiles (["r"] ++ ["ModsSource"])
        [(["r", "ModsSource", "a.txt"], .bytes "A"),
          (["r", "Engine", "Mods", "m.dll"], .bytes "M")] ∧
    restrictFiles (["s"] ++ ["Engine", "Mods"])
      ((execute_restore_operation ["s"] (["d"] ++ [zipFileName "T"])
        (fun _ => Except.ok ()) ["u"]
        (execute_backup_operation ["r"] ["d"] (.ok "RC") "T" ["t"]
          { dirs := [["r"], ["r", "ModsSource"], ["r", "Engine"],
              ["r", "Engine", "Mods"]],
            files := [(["r", "ModsSource", "a.txt"], .bytes "A"),
              (["r", "Engine", "Mods", "m.dll"], .bytes "M")] }).fs).fs.files)
      = restrictFiles (["r"] ++ ["Engine", "Mods"])
        [(["r", "ModsSource", "a.txt"], .bytes "A"),
          (["r", "Engine", "Mods", "m.dll"], .bytes "M")] ∧
    sameSet
      (restrictDirs (["s"] ++ ["ModsSource"])
        ((execute_restore_operation ["s"] (["d"] ++ [zipFileName "T"])
          (fun _ => Except.ok ()) ["u"]
          (execute_backup_operation ["r"] ["d"] (.ok "RC") "T" ["t"]
            { dirs := [["r"], ["r", "ModsSource"], ["r", "Engine"],
                ["r", "Engine", "Mods"]],
              files := [(["r", "ModsSource", "a.txt"], .bytes "A"),
                (["r", "Engine", "Mods", "m.dll"], .bytes "M")] }).fs).fs.dirs))
      (restrictDirs (["r"] ++ ["ModsSource"])
        [["r"], ["r", "ModsSource"], ["r", "Engine"], ["r", "Engine", "Mods"]])
      = true ∧
    sameSet
      (restrictDirs (["s"] ++ ["Engine", "Mods"])
        ((execute_restore_operation ["s"] (["d"] ++ [zipFileName "T"])
          (fun _ => Except.ok ()) ["u"]
          (execute_backup_operation ["r"] ["d"] (.ok "RC") "T" ["t"]
            { dirs := [["r"], ["r", "ModsSource"], ["r", "Engine"],
                ["r", "Engine", "Mods"]],
              files := [(["r", "ModsSource", "a.txt"], .bytes "A"),
                (["r", "Engine", "Mods", "m.dll"], .bytes "M")] }).fs).fs.dirs))
      (restrictDirs (["r"] ++ ["Engine", "Mods"])
        [["r"], ["r", "ModsSource"], ["r", "Engine"], ["r", "Engine", "Mods"]])
      = true) :=
  ⟨by decide, by decide, by decide, by decide, by decide, by decide, by decide,
   by decide, by decide, by decide, by decide,
   c1_backup_restore_roundtrip ["r"] ["d"] ["s"] "RC" "T" ["t"] ["u"]
     { dirs := [["r"], ["r", "ModsSource"], ["r", "Engine"],
         ["r", "Engine", "Mods"]],
       files := [(["r", "ModsSource", "a.txt"], .bytes "A"),
         (["r", "Engine", "Mods", "m.dll"], .bytes "M")] }
     (fun _ => Except.ok ())
     (by decide) (by decide) (by decide) (by decide) (by decide) (by decide)
     (by decide) (by decide) (by decide) (by decide) (by decide)⟩

/-- C1 counterexample to the unamended claim: with the backup destination
folder placed inside `installationRoot/ModsSource`, the installation root
contains both subdirectories, the registry export succeeds, the staging
areas are fresh and the restore target root is empty, yet the round trip
does not reproduce the original `ModsSource` tree: the directory the
backup operation itself creates for the destination folder is staged,
archived and restored, so the restored tree holds a subdirectory the
original tree never had. -/
theorem c1_roundtrip_counterexample :
    (containsPath
      [["r"], ["r", "ModsSource"], ["r", "Engine"], ["r", "Engine", "Mods"]]
      (["r"] ++ ["ModsSource"]) = true) ∧
    (containsPath
      [["r"], ["r", "ModsSource"], ["r", "Engine"], ["r", "Engine", "Mods"]]
      (["r"] ++ ["Engine", "Mods"]) = true) ∧
    (FS.freshFor
      { dirs := [["r"], ["r", "ModsSource"], ["r", "Engine"],
          ["r", "Engine", "Mods"]],
        files := [] } ["t"] = true) ∧
    ((execute_backup_operation ["r"] ["r", "ModsSource", "b"] (.ok "RC") "T"
      ["t"]
      { dirs := [["r"], ["r", "ModsSource"], ["r", "Engine"],
          ["r", "Engine", "Mods"]],
        files := [] }).success = true) ∧
    ((execute_backup_operation ["r"] ["r", "ModsSource", "b"] (.ok "RC") "T"
      ["t"]
      { dirs := [["r"], ["r", "ModsSource"], ["r", "Engine"],
          ["r", "Engine", "Mods"]],
        files := [] }).fs.freshFor ["u"] = true) ∧
    ((execute_backup_operation ["r"] ["r", "ModsSource", "b"] (.ok "RC") "T"
      ["t"]
      { dirs := [["r"], ["r", "ModsSource"], ["r", "Engine"],
          ["r", "Engine", "Mods"]],
        files := [] }).fs.freshFor ["s"] = true) ∧
    ((execute_restore_operation ["s"]
      (["r", "ModsSource", "b"] ++ [zipFileName "T"]) (fun _ => Except.ok ())
      ["u"]
      (execute_backup_operation ["r"] ["r", "ModsSource", "b"] (.ok "RC") "T"
        ["t"]
        { dirs := [["r"], ["r", "ModsSource"], ["r", "Engine"],
            ["r", "Engine", "Mods"]],
          files := [] }).fs).success = true) ∧
    (sameSet
      (restrictDirs (["s"] ++ ["ModsSource"])
        ((execute_restore_operation ["s"]
          (["r", "ModsSource", "b"] ++ [zipFileName "T"])
          (fun _ => Except.ok ()) ["u"]
          (execute_backup_operation ["r"] ["r", "ModsSource", "b"] (.ok "RC")
            "T" ["t"]
            { dirs := [["r"], ["r", "ModsSource"], ["r", "Engine"],
                ["r", "Engine", "Mods"]],
              files := [] }).fs).fs.dirs))
      (restrictDirs (["r"] ++ ["ModsSource"])
        [["r"], ["r", "ModsSource"], ["r", "Engine"], ["r", "Engine", "Mods"]])
      = false) := by
  refine ⟨by decide, by decide, by decide, by decide, by decide, by decide,
    by decide, by decide⟩

/-- C7 counterexample to the unamended claim: with the backup destination
folder placed inside `installationRoot/ModsSource`, the `os.makedirs` call
that ensures the destination folder exists creates `ModsSource` before the
existence check runs, so on an installation root without `ModsSource` the
backup logs zero missing-`ModsSource` warnings and the produced archive
does hold a `ModsSource` entry — refuting both the exactly-one-warning and
the no-`ModsSource`-entry parts of the claim. -/
theorem c7_missing_modssource_counterexample :
    (FS.existsPath
      { dirs := [["r"], ["r", "Engine"], ["r", "Engine", "Mods"]],
        files := [] } (["r"] ++ ["ModsSource"]) = false) ∧
    (FS.freshFor
      { dirs := [["r"], ["r", "Engine"], ["r", "Engine", "Mods"]],
        files := [] } ["t"] = true) ∧
    ((execute_backup_operation ["r"] ["r", "ModsSource", "b"] (.ok "RC") "T"
      ["t"]
      { dirs := [["r"], ["r", "Engine"], ["r", "Engine", "Mods"]],
        files := [] }).success = true) ∧
    (archiveMentions
      (execute_backup_operation ["r"] ["r", "ModsSource", "b"] (.ok "RC") "T"
        ["t"]
        { dirs := [["r"], ["r", "Engine"], ["r", "Engine", "Mods"]],
          files := [] }).fs
      (["r", "ModsSource", "b"] ++ [zipFileName "T"]) "ModsSource" = true) ∧
    (((execute_backup_operation ["r"] ["r", "ModsSource", "b"] (.ok "RC") "T"
      ["t"]
      { dirs := [["r"], ["r", "Engine"], ["r", "Engine", "Mods"]],
        files := [] }).log).count (msWarnMsg ["r"]) = 0) := by
  refine ⟨by decide, by decide, by decide, by decide, by decide⟩

/-- Concrete instance of the restore success-condition theorem. -/
theorem c5_restore_success_condition_witness :
    (FS.freshFor { dirs := [["r"]], files := [] } ["t"] = true) ∧
    (isPre ["t"] ["r"] = false) ∧
    (isPre ["r"] ["t"] = false) ∧
    (FS.freshFor
      { dirs := [["r2"]],
        files := [(["a.zip"], Content.zip
            [(["ModsSource", "x.txt"], .bytes "X")] [["ModsSource"]])] }
      ["u"] = true) ∧
    (isPre ["u"] ["r2"] = false) ∧
    (isPre ["r2"] ["u"] = false) ∧
    (lookupFile ["a.zip"]
      [(["a.zip"], Content.zip
          [(["ModsSource", "x.txt"], .bytes "X")] [["ModsSource"]])] =
      some (.zip [(["ModsSource", "x.txt"], .bytes "X")] [["ModsSource"]])) ∧
    (lookupFile ["Windhawk.reg"]
      [(["ModsSource", "x.txt"], (.bytes "X" : Content))] = none) ∧
    ((execute_restore_operation ["r"] ["nope"] (fun _ => Except.ok ()) ["t"]
      { dirs := [["r"]], files := [] }).success =
      spec_restore_success ["nope"] { dirs := [["r"]], files := [] }
        (fun _ => Except.ok ()) ∧
    (execute_restore_operation ["r2"] ["a.zip"] (fun _ => Except.ok ()) ["u"]
      { dirs := [["r2"]],
        files := [(["a.zip"], Content.zip
            [(["ModsSource", "x.txt"], .bytes "X")] [["ModsSource"]])] }).success
      = true ∧
    regMissingMsg ∈
      (execute_restore_operation ["r2"] ["a.zip"] (fun _ => Except.ok ()) ["u"]
        { dirs := [["r2"]],
          files := [(["a.zip"], Content.zip
              [(["ModsSource", "x.txt"], .bytes "X")] [["ModsSource"]])] }).log) :=
  ⟨by decide, by decide, by decide, by decide, by decide, by decide, rfl, rfl,
   c5_restore_success_condition ["r"] ["nope"] (fun _ => Except.ok ()) ["t"]
     { dirs := [["r"]], files := [] } (by decide) (by decide) (by decide)
     ["r2"] ["a.zip"] (fun _ => Except.ok ()) ["u"]
     { dirs := [["r2"]],
       files := [(["a.zip"], Content.zip
           [(["ModsSource", "x.txt"], .bytes "X")] [["ModsSource"]])] }
     [(["ModsSource", "x.txt"], .bytes "X")] [["ModsSource"]]
     (by decide) (by decide) (by decide) rfl rfl⟩

/-- Concrete instance of the overwrite-merge theorem. -/
theorem c6_restore_overwrite_merge_witness :
    (FS.freshFor
      { dirs := [["r"], ["r", "ModsSource"]],
        files := [(["z"], Content.zip
            [(["ModsSource", "f"], .bytes "n"),
              (["Engine", "Mods", "g"], .bytes "w")]
            [["ModsSource"], ["Engine", "Mods"]]),
          (["r", "ModsSource", "q"], .bytes "old")] } ["t"] = true) ∧
    (isPre ["t"] ["r"] = false) ∧
    (isPre ["r"] ["t"] = false) ∧
    (lookupFile ["z"]
      [(["z"], Content.zip
          [(["ModsSource", "f"], .bytes "n"),
            (["Engine", "Mods", "g"], .bytes "w")]
          [["ModsSource"], ["Engine", "Mods"]]),
        (["r", "ModsSource", "q"], .bytes "old")] =
      some (.zip
        [(["ModsSource", "f"], .bytes "n"),
          (["Engine", "Mods", "g"], .bytes "w")]
        [["ModsSource"], ["Engine", "Mods"]])) ∧
    (containsPath [["ModsSource"], ["Engine", "Mods"]] ["ModsSource"] = true) ∧
    (containsPath [["ModsSource"], ["Engine", "Mods"]] ["Engine", "Mods"] = true) ∧
    (lookupFile ("ModsSource" :: ["f"])
      [(["ModsSource", "f"], (.bytes "n" : Content)),
        (["Engine", "Mods", "g"], .bytes "w")] = some (.bytes "n")) ∧
    (lookupFile ("Engine" :: "Mods" :: ["g"])
      [(["ModsSource", "f"], (.bytes "n" : Content)),
        (["Engine", "Mods", "g"], .bytes "w")] = some (.bytes "w")) ∧
    (lookupFile ("ModsSource" :: ["q"])
      [(["ModsSource", "f"], (.bytes "n" : Content)),
        (["Engine", "Mods", "g"], .bytes "w")] = none) ∧
    (lookupFile ("Engine" :: "Mods" :: ["q"])
      [(["ModsSource", "f"], (.bytes "n" : Content)),
        (["Engine", "Mods", "g"], .bytes "w")] = none) ∧
    (lookupFile (["r"] ++ "ModsSource" :: ["f"])
      ((execute_restore_operation ["r"] ["z"] (fun _ => Except.ok ()) ["t"]
        { dirs := [["r"], ["r", "ModsSource"]],
          files := [(["z"], Content.zip
              [(["ModsSource", "f"], .bytes "n"),
                (["Engine", "Mods", "g"], .bytes "w")]
              [["ModsSource"], ["Engine", "Mods"]]),
            (["r", "ModsSource", "q"], .bytes "old")] }).fs.files) =
      some (.bytes "n") ∧
    lookupFile (["r"] ++ "Engine" :: "Mods" :: ["g"])
      ((execute_restore_operation ["r"] ["z"] (fun _ => Except.ok ()) ["t"]
        { dirs := [["r"], ["r", "ModsSource"]],
          files := [(["z"], Content.zip
              [(["ModsSource", "f"], .bytes "n"),
                (["Engine", "Mods", "g"], .bytes "w")]
              [["ModsSource"], ["Engine", "Mods"]]),
            (["r", "ModsSource", "q"], .bytes "old")] }).fs.files) =
      some (.bytes "w") ∧
    lookupFile (["r"] ++ "ModsSource" :: ["q"])
      ((execute_restore_operation ["r"] ["z"] (fun _ => Except.ok ()) ["t"]
        { dirs := [["r"], ["r", "ModsSource"]],
          files := [(["z"], Content.zip
              [(["ModsSource", "f"], .bytes "n"),
                (["Engine", "Mods", "g"], .bytes "w")]
              [["ModsSource"], ["Engine", "Mods"]]),
            (["r", "ModsSource", "q"], .bytes "old")] }).fs.files) =
      lookupFile (["r"] ++ "ModsSource" :: ["q"])
        [(["z"], Content.zip
            [(["ModsSource", "f"], .bytes "n"),
              (["Engine", "Mods", "g"], .bytes "w")]
            [["ModsSource"], ["Engine", "Mods"]]),
          (["r", "ModsSource", "q"], .bytes "old")] ∧
    lookupFile (["r"] ++ "Engine" :: "Mods" :: ["q"])
      ((execute_restore_operation ["r"] ["z"] (fun _ => Except.ok ()) ["t"]
        { dirs := [["r"], ["r", "ModsSource"]],
          files := [(["z"], Content.zip
              [(["ModsSource", "f"], .bytes "n"),
                (["Engine", "Mods", "g"], .bytes "w")]
              [["ModsSource"], ["Engine", "Mods"]]),
            (["r", "ModsSource", "q"], .bytes "old")] }).fs.files) =
      lookupFile (["r"] ++ "Engine" :: "Mods" :: ["q"])
        [(["z"], Content.zip
            [(["ModsSource", "f"], .bytes "n"),
              (["Engine", "Mods", "g"], .bytes "w")]
            [["ModsSource"], ["Engine", "Mods"]]),
          (["r", "ModsSource", "q"], .bytes "old")]) :=
  ⟨by decide, by decide, by decide, rfl, by decide, by decide, rfl, rfl, rfl, rfl,
   c6_restore_overwrite_merge ["r"] ["z"] ["t"]
     { dirs := [["r"], ["r", "ModsSource"]],
       files := [(["z"], Content.zip
           [(["ModsSource", "f"], .bytes "n"),
             (["Engine", "Mods", "g"], .bytes "w")]
           [["ModsSource"], ["Engine", "Mods"]]),
         (["r", "ModsSource", "q"], .bytes "old")] }
     [(["ModsSource", "f"], .bytes "n"), (["Engine", "Mods", "g"], .bytes "w")]
     [["ModsSource"], ["Engine", "Mods"]]
     (fun _ => Except.ok ())
     ["f"] ["g"] ["q"] ["q"] (.bytes "n") (.bytes "w")
     (by decide) (by decide) (by decide) rfl (by decide) (by decide)
     rfl rfl rfl rfl⟩

/-- Concrete instance of the import-failure no-rollback theorem. -/
theorem c9_restore_import_failure_keeps_copies_witness :
    (FS.freshFor
      { dirs := [["r"]],
        files := [(["z"], Content.zip
            [(["ModsSource", "f"], .bytes "n"),
              (["Engine", "Mods", "g"], .bytes "w"),
              (["Windhawk.reg"], .bytes "R")]
            [["ModsSource"], ["Engine", "Mods"]])] } ["t"] = true) ∧
    (isPre ["t"] ["r"] = false) ∧
    (isPre ["r"] ["t"] = false) ∧
    (lookupFile ["z"]
      [(["z"], Content.zip
          [(["ModsSource", "f"], .bytes "n"),
            (["Engine", "Mods", "g"], .bytes "w"),
            (["Windhawk.reg"], .bytes "R")]
          [["ModsSource"], ["Engine", "Mods"]])] =
      some (.zip
        [(["ModsSource", "f"], .bytes "n"),
          (["Engine", "Mods", "g"], .bytes "w"),
          (["Windhawk.reg"], .bytes "R")]
        [["ModsSource"], ["Engine", "Mods"]])) ∧
    (containsPath [["ModsSource"], ["Engine", "Mods"]] ["ModsSource"] = true) ∧
    (lookupFile ("ModsSource" :: ["f"])
      [(["ModsSource", "f"], (.bytes "n" : Content)),
        (["Engine", "Mods", "g"], .bytes "w"),
        (["Windhawk.reg"], .bytes "R")] = some (.bytes "n")) ∧
    (lookupFile ("Engine" :: "Mods" :: ["g"])
      [(["ModsSource", "f"], (.bytes "n" : Content)),
        (["Engine", "Mods", "g"], .bytes "w"),
        (["Windhawk.reg"], .bytes "R")] = some (.bytes "w")) ∧
    (lookupFile ["Windhawk.reg"]
      [(["ModsSource", "f"], (.bytes "n" : Content)),
        (["Engine", "Mods", "g"], .bytes "w"),
        (["Windhawk.reg"], .bytes "R")] = some (.bytes "R")) ∧
    (containsPath [["ModsSource"], ["Engine", "Mods"]] ["Engine", "Mods"] = true) ∧
    ((fun _ => Except.error "denied" : Content → Except String Unit)
      (.bytes "R") = .error "denied") ∧
    ((execute_restore_operation ["r"] ["z"] (fun _ => Except.error "denied")
      ["t"]
      { dirs := [["r"]],
        files := [(["z"], Content.zip
            [(["ModsSource", "f"], .bytes "n"),
              (["Engine", "Mods", "g"], .bytes "w"),
              (["Windhawk.reg"], .bytes "R")]
            [["ModsSource"], ["Engine", "Mods"]])] }).success = false ∧
    regImportErrMsg "denied" ∈
      (execute_restore_operation ["r"] ["z"] (fun _ => Except.error "denied")
        ["t"]
        { dirs := [["r"]],
          files := [(["z"], Content.zip
              [(["ModsSource", "f"], .bytes "n"),
                (["Engine", "Mods", "g"], .bytes "w"),
                (["Windhawk.reg"], .bytes "R")]
              [["ModsSource"], ["Engine", "Mods"]])] }).log ∧
    lookupFile (["r"] ++ "ModsSource" :: ["f"])
      ((execute_restore_operation ["r"] ["z"] (fun _ => Except.error "denied")
        ["t"]
        { dirs := [["r"]],
          files := [(["z"], Content.zip
              [(["ModsSource", "f"], .bytes "n"),
                (["Engine", "Mods", "g"], .bytes "w"),
                (["Windhawk.reg"], .bytes "R")]
              [["ModsSource"], ["Engine", "Mods"]])] }).fs.files) =
      some (.bytes "n") ∧
    lookupFile (["r"] ++ "Engine" :: "Mods" :: ["g"])
      ((execute_restore_operation ["r"] ["z"] (fun _ => Except.error "denied")
        ["t"]
        { dirs := [["r"]],
          files := [(["z"], Content.zip
              [(["ModsSource", "f"], .bytes "n"),
                (["Engine", "Mods", "g"], .bytes "w"),
                (["Windhawk.reg"], .bytes "R")]
              [["ModsSource"], ["Engine", "Mods"]])] }).fs.files) =
      some (.bytes "w")) :=
  ⟨by decide, by decide, by decide, rfl, by decide, rfl, rfl, rfl, by decide, rfl,
   c9_restore_import_failure_keeps_copies ["r"] ["z"] ["t"]
     { dirs := [["r"]],
       files := [(["z"], Content.zip
           [(["ModsSource", "f"], .bytes "n"),
             (["Engine", "Mods", "g"], .bytes "w"),
             (["Windhawk.reg"], .bytes "R")]
           [["ModsSource"], ["Engine", "Mods"]])] }
     [(["ModsSource", "f"], .bytes "n"), (["Engine", "Mods", "g"], .bytes "w"),
       (["Windhawk.reg"], .bytes "R")]
     [["ModsSource"], ["Engine", "Mods"]]
     (fun _ => Except.error "denied") (.bytes "R") "denied"
     ["f"] ["g"] (.bytes "n") (.bytes "w")
     (by decide) (by decide) (by decide) rfl (by decide) rfl rfl rfl
     (by decide) rfl⟩

/-- Concrete instance of the amended root-untouched theorem. -/
theorem c10_backup_leaves_root_unchanged_witness :
    (isPre ["r"] (["d"] ++ [zipFileName "T"]) = false) ∧
    (isPre ["r"] ["t"] = false) ∧
    (isPre ["t"] ["r"] = false) ∧
    (restrictFiles ["r"]
      ((execute_backup_operation ["r"] ["d"] (Except.ok "RC") "T" ["t"]
        { dirs := [["r"], ["r", "ModsSource"], ["r", "Engine"],
            ["r", "Engine", "Mods"]],
          files := [(["r", "ModsSource", "a.txt"], .bytes "A")] }).fs.files) =
      restrictFiles ["r"] [(["r", "ModsSource", "a.txt"], .bytes "A")] ∧
    restrictDirs ["r"]
      ((execute_backup_operation ["r"] ["d"] (Except.ok "RC") "T" ["t"]
        { dirs := [["r"], ["r", "ModsSource"], ["r", "Engine"],
            ["r", "Engine", "Mods"]],
          files := [(["r", "ModsSource", "a.txt"], .bytes "A")] }).fs.dirs) =
      restrictDirs ["r"]
        [["r"], ["r", "ModsSource"], ["r", "Engine"], ["r", "Engine", "Mods"]]) :=
  ⟨by decide, by decide, by decide,
   c10_backup_leaves_root_unchanged ["r"] ["d"] (Except.ok "RC") "T" ["t"]
     { dirs := [["r"], ["r", "ModsSource"], ["r", "Engine"],
         ["r", "Engine", "Mods"]],
       files := [(["r", "ModsSource", "a.txt"], .bytes "A")] }
     (by decide) (by decide) (by decide)⟩

end WSBU
